import Mathlib

/-!
# create-express-crud-app: the project generator

A model of `lib/generator.js` (the function `generateProject`) and of the
launcher `bin/cli.js`, followed by the properties of the generator that the
specification states.

The generator is a straight-line script over three pieces of ambient state:
the file system, the working directory of the process and the local variable
`packageJson`.  It is embedded as the list of its statements (`body`) run by a
fail-fast interpreter (`runStmts`): a statement that throws ends the run and
leaves the state as it is at that moment.  What lies outside the repository
is a parameter (`Env`): the external commands started by `execSync`, the
paths the operating system refuses to create or write, and the JSON reader
and printer of the JavaScript runtime.
-/

namespace CreateExpressCrudApp

/-! ## Paths -/

/-- An absolute path in canonical form: its components, from the root down. -/
abbrev Path := List String

/-- Cut a character sequence at every occurrence of `sep`. -/
def splitOnChar (sep : Char) : List Char → List (List Char)
  | [] => [[]]
  | c :: cs =>
    if c = sep then [] :: splitOnChar sep cs
    else
      match splitOnChar sep cs with
      | [] => [[c]]
      | seg :: rest => (c :: seg) :: rest

/-- The segments of a path string, cut at the separator of POSIX paths. -/
def segments (p : String) : List String :=
  (splitOnChar '/' p.data).map String.mk

/-- Resolve one segment against a canonical path, as path normalisation does:
an empty segment and `.` stay in place, `..` goes to the parent. -/
def applySegment (base : Path) (seg : String) : Path :=
  if seg = "" ∨ seg = "." then base
  else if seg = ".." then base.dropLast
  else base ++ [seg]

/-- Model of `path.join(base, p)` for a canonical absolute `base` (what
`process.cwd()` returns): the segments of `p` are resolved one after another.
It is also how a relative path given to an `fs` call is resolved against the
working directory.  This is the node the joined path leads to; whether the
joined string ends in a separator is `endsInSeparator`. -/
def pathJoin (base : Path) (p : String) : Path :=
  (segments p).foldl applySegment base

/-- Whether the string `path.join(base, p)` ends in a separator: normalisation keeps the
trailing separator of what it is given, so it does exactly when `p` ends in one.  A path
that ends in a separator can only name a directory. -/
def endsInSeparator (p : String) : Bool := decide (p.data.getLast? = some '/')

/-- Whether the last name of a path holds a NUL.  Node refuses such a path in every
`fs` call; no file system holds such a name. -/
def nameHasNul (p : Path) : Bool :=
  match p.getLast? with
  | some name => decide ('\x00' ∈ name.data)
  | none => false

/-- The directory holding `p`. -/
def parentDir (p : Path) : Path := p.dropLast

/-! ## File system -/

/-- What a path can name. -/
inductive Node where
  | dir
  | file (content : String)
  deriving DecidableEq, Repr

/-- A file system: a finite table from paths to nodes.  The names along a path are file
names: they hold neither a separator nor a NUL. -/
structure FS where
  entries : List (Path × Node)
  deriving DecidableEq, Repr

/-- The node a path names, if any. -/
def FS.get (fs : FS) (p : Path) : Option Node :=
  match fs.entries.find? (fun e => decide (e.1 = p)) with
  | some e => some e.2
  | none => none

/-- Bind `p` to `v`, replacing what `p` named before. -/
def FS.set (fs : FS) (p : Path) (v : Node) : FS :=
  ⟨(p, v) :: fs.entries.filter (fun e => decide (e.1 ≠ p))⟩

/-- Model of `fs.existsSync` on a path that does not end in a separator. -/
def existsSync (fs : FS) (p : Path) : Bool := (fs.get p).isSome

/-- Whether the way to `target` can be walked from the working directory `base`: every
path above `target` must be a directory, apart from those above `base`, which are the
directories the process stands in. -/
def walkable (fs : FS) (base target : Path) : Bool :=
  (List.range target.length).all (fun k =>
    decide ((target.take k <+: base ∧ target.take k ≠ base) ∨
      fs.get (target.take k) = some Node.dir))

/-- Model of `fs.existsSync(path.join(base, p))`: the way to the node the joined path leads
to must be walkable, the node must be there, and it must be a directory when the joined
path ends in a separator (a file followed by a separator is not found). -/
def existsSyncJoin (fs : FS) (base : Path) (p : String) : Bool :=
  walkable fs base (pathJoin base p) &&
    (if endsInSeparator p then decide (fs.get (pathJoin base p) = some Node.dir)
     else existsSync fs (pathJoin base p))

/-! ## JSON documents -/

/-- A parsed JSON document.  A number is kept as a decimal `mantissa * 10 ^ exponent`;
the members of an object are in enumeration order. -/
inductive Json where
  | null
  | bool (b : Bool)
  | num (mantissa exponent : Int)
  | str (s : String)
  | arr (items : List Json)
  | obj (members : List (String × Json))

/-- Assignment to the property `key` in a member list: an existing member keeps its
place and takes the new value, a new member goes to the end. -/
def assignMember (key : String) (value : Json) : List (String × Json) → List (String × Json)
  | [] => [(key, value)]
  | (k, v) :: rest =>
    if k = key then (k, value) :: rest else (k, v) :: assignMember key value rest

/-- The value of the member `key`, if present. -/
def lookupMember (key : String) : List (String × Json) → Option Json
  | [] => none
  | (k, v) :: rest => if k = key then some v else lookupMember key rest

/-- Model of the statement `target.key = value` of non-strict code, seen through a later
`JSON.stringify`: on an object the member is set; on `null` a `TypeError` is thrown
(`none`); on a number, string or boolean the assignment is dropped silently; on an array
the property is set but is not an element, so the printed document does not change. -/
def setProperty (target : Json) (key : String) (value : Json) : Option Json :=
  match target with
  | Json.null => none
  | Json.obj members => some (Json.obj (assignMember key value members))
  | other => some other

/-! ## Environment and process state -/

/-- Everything the generator relies on from outside the repository. -/
structure Env where
  /-- Effect of `execSync(command)` run in working directory `cwd` on the file system:
  whether the command exited with status 0, and the file system it left (a command that
  fails may already have written part of its output). -/
  exec : String → Path → FS → Bool × FS
  /-- Paths the operating system refuses to create or write (permissions, quota). -/
  denied : Path → Bool
  /-- What a refused `writeFileSync(path, content)` leaves in the file.  The call opens
  the file, which creates or empties it, and then writes: `none` when the refusal comes at
  the opening, so that nothing changes; `some text` when the file was opened and the
  writing broke off (disk full, quota), the file then holding `text`. -/
  refusedWrite : Path → String → Option String
  /-- The runtime function `JSON.parse`; `none` stands for a `SyntaxError`. -/
  jsonParse : String → Option Json
  /-- The runtime function `fun v => JSON.stringify(v, null, 2)`. -/
  jsonStringify : Json → String


/-- The statements `generateProject` is made of, one constructor per shape of call. -/
inductive Stmt where
  /-- The call `fs.mkdirSync(path)` on an absolute path. -/
  | mkdirSync (path : Path)
  /-- The call `process.chdir(path)`. -/
  | chdir (path : Path)
  /-- The call `execSync(command)`. -/
  | execSync (command : String)
  /-- The declaration `const packageJson = JSON.parse(fs.readFileSync(file, 'utf8'))`. -/
  | readPackageJson (file : String)
  /-- The assignment `packageJson.key = value`. -/
  | assign (key : String) (value : Json)
  /-- The call `fs.writeFileSync(file, JSON.stringify(packageJson, null, 2))`. -/
  | writePackageJson (file : String)
  /-- The call `fs.mkdirSync(dir, { recursive: true })` of the `forEach` loop. -/
  | mkdirRecursive (dir : String)
  /-- The call `fs.writeFileSync(file, content)`. -/
  | writeFileSync (file : String) (content : String)

/-- State of the running process. -/
structure State where
  /-- The file system. -/
  fs : FS
  /-- The working directory of the process. -/
  cwd : Path
  /-- The local variable `packageJson`; `none` before its declaration is reached. -/
  packageJson : Option Json
  /-- The statements started so far, oldest first. -/
  log : List Stmt

/-- The process as it is when `generateProject` is called. -/
def State.initial (fs : FS) (cwd : Path) : State :=
  { fs := fs, cwd := cwd, packageJson := none, log := [] }

/-- How a statement, or a sequence of statements, ends: control goes on with the next
statement, or an exception leaves the function. -/
inductive StepResult where
  | next (s : State)
  | throw (s : State)

/-- The state in which a statement ends. -/
def StepResult.state : StepResult → State
  | StepResult.next s => s
  | StepResult.throw s => s

/-! ## File-system calls -/

/-- Model of `fs.mkdirSync(p)` without options: fails when the new name holds a NUL, when
the operating system refuses, when `p` exists already, or when the parent of `p` is not a
directory. -/
def mkdirPlain (env : Env) (p : Path) (fs : FS) : Option FS :=
  if nameHasNul p then none
  else if env.denied p then none
  else if (fs.get p).isSome then none
  else if fs.get (parentDir p) ≠ some Node.dir then none
  else some (fs.set p Node.dir)

/-- Model of `fs.mkdirSync(dir, { recursive: true })` below `base`: every missing
directory along `segs` is created in turn, a directory that exists is kept, a file in the
way makes the call fail.  The directories created before a failure stay. -/
def mkdirP (env : Env) : Path → List String → FS → Bool × FS
  | _, [], fs => (true, fs)
  | base, seg :: segs, fs =>
    match fs.get (base ++ [seg]) with
    | some Node.dir => mkdirP env (base ++ [seg]) segs fs
    | some (Node.file _) => (false, fs)
    | none =>
      if env.denied (base ++ [seg]) then (false, fs)
      else if fs.get base ≠ some Node.dir then (false, fs)
      else mkdirP env (base ++ [seg]) segs (fs.set (base ++ [seg]) Node.dir)

/-- Model of `fs.readFileSync(p, 'utf8')`: the content of the file `p`; fails when `p` is
not a file or its directory is gone. -/
def readFile (p : Path) (fs : FS) : Option String :=
  if fs.get (parentDir p) ≠ some Node.dir then none
  else
    match fs.get p with
    | some (Node.file content) => some content
    | _ => none

/-- Model of `fs.writeFileSync(p, content)`: creates or replaces the file `p`.  It fails
with nothing changed when `p` is a directory or the parent of `p` is not a directory.  When
the operating system refuses the write, it fails too, and leaves what `Env.refusedWrite`
says: nothing changed, or the file created or emptied and holding the part written. -/
def writeFile (env : Env) (p : Path) (content : String) (fs : FS) : Bool × FS :=
  if fs.get p = some Node.dir then (false, fs)
  else if fs.get (parentDir p) ≠ some Node.dir then (false, fs)
  else if env.denied p then
    match env.refusedWrite p content with
    | none => (false, fs)
    | some left => (false, fs.set p (Node.file left))
  else (true, fs.set p (Node.file content))

/-! ## Running statements -/

/-- Effect of one statement on a state in which it has already been logged. -/
def Stmt.effect (env : Env) (s : State) : Stmt → StepResult
  | Stmt.mkdirSync path =>
    match mkdirPlain env path s.fs with
    | some fs => StepResult.next { s with fs := fs }
    | none => StepResult.throw s
  | Stmt.chdir path =>
    if s.fs.get path = some Node.dir then StepResult.next { s with cwd := path }
    else StepResult.throw s
  | Stmt.execSync command =>
    match env.exec command s.cwd s.fs with
    | (true, fs) => StepResult.next { s with fs := fs }
    | (false, fs) => StepResult.throw { s with fs := fs }
  | Stmt.readPackageJson file =>
    match readFile (pathJoin s.cwd file) s.fs with
    | none => StepResult.throw s
    | some text =>
      match env.jsonParse text with
      | none => StepResult.throw s
      | some doc => StepResult.next { s with packageJson := some doc }
  | Stmt.assign key value =>
    match s.packageJson with
    | none => StepResult.throw s
    | some doc =>
      match setProperty doc key value with
      | none => StepResult.throw s
      | some doc1 => StepResult.next { s with packageJson := some doc1 }
  | Stmt.writePackageJson file =>
    match s.packageJson with
    | none => StepResult.throw s
    | some doc =>
      match writeFile env (pathJoin s.cwd file) (env.jsonStringify doc) s.fs with
      | (true, fs) => StepResult.next { s with fs := fs }
      | (false, fs) => StepResult.throw { s with fs := fs }
  | Stmt.mkdirRecursive dir =>
    match mkdirP env s.cwd (segments dir) s.fs with
    | (true, fs) => StepResult.next { s with fs := fs }
    | (false, fs) => StepResult.throw { s with fs := fs }
  | Stmt.writeFileSync file content =>
    match writeFile env (pathJoin s.cwd file) content s.fs with
    | (true, fs) => StepResult.next { s with fs := fs }
    | (false, fs) => StepResult.throw { s with fs := fs }

/-- Run one statement: it is entered in the log, then takes effect. -/
def Stmt.run (env : Env) (st : Stmt) (s : State) : StepResult :=
  st.effect env { s with log := s.log ++ [st] }

/-- Run statements in order; the first one that throws ends the run. -/
def runStmts (env : Env) : List Stmt → State → StepResult
  | [], s => StepResult.next s
  | st :: rest, s =>
    match st.run env s with
    | StepResult.next s1 => runStmts env rest s1
    | StepResult.throw s1 => StepResult.throw s1

/-! ## The templates of `lib/generator.js` -/

/-- Lines joined by line feeds: the text of a multi-line template literal. -/
def joinLines : List String → String
  | [] => ""
  | [line] => line
  | line :: rest => line ++ "\n" ++ joinLines rest

/-- Text of the template literal `envContent`, written to `.env`: the only template with
a substitution, `${projectName}`. -/
def envContent (projectName : String) : String :=
  "PORT=3000\nMONGODB_URI=mongodb://localhost:27017/" ++ projectName ++
    "\nJWT_SECRET=votre_secret_jwt\nNODE_ENV=development"

/-- Text of the template literal gitignoreContent, written to .gitignore. -/
def gitignoreContent : String :=
  joinLines [
    "node_modules",
    ".env",
    ".DS_Store",
    "npm-debug.log",
    "*.log"
  ]

/-- Text of the template literal serverContent, written to src/server.js. -/
def serverContent : String :=
  joinLines [
    "import express from \x27express\x27;",
    "import cors from \x27cors\x27;",
    "import helmet from \x27helmet\x27;",
    "import morgan from \x27morgan\x27;",
    "import dotenv from \x27dotenv\x27;",
    "import connectDB from \x27./config/db.js\x27;",
    "",
    "// Importer les routes",
    "import userRoutes from \x27./routes/userRoutes.js\x27;",
    "",
    "// Charger les variables d\x27environnement",
    "dotenv.config();",
    "",
    "// Connexion à la base de données",
    "connectDB();",
    "",
    "const app = express();",
    "",
    "// Middleware",
    "app.use(express.json());",
    "app.use(express.urlencoded(\x7b extended: true \x7d));",
    "app.use(cors());",
    "app.use(helmet());",
    "app.use(morgan(\x27dev\x27));",
    "",
    "// Routes",
    "app.use(\x27/api/users\x27, userRoutes);",
    "",
    "app.get(\x27/\x27, (req, res) => \x7b",
    "  res.send(\x27API is running...\x27);",
    "\x7d);",
    "",
    "// Middleware de gestion d\x27erreur",
    "app.use((err, req, res, next) => \x7b",
    "  const statusCode = res.statusCode === 200 ? 500 : res.statusCode;",
    "  res.status(statusCode);",
    "  res.json(\x7b",
    "    message: err.message,",
    "    stack: process.env.NODE_ENV === \x27production\x27 ? null : err.stack",
    "  \x7d);",
    "\x7d);",
    "",
    "const PORT = process.env.PORT || 3000;",
    "",
    "app.listen(PORT, () => \x7b",
    "  console.log(\x60Serveur démarré sur le port $\x7bPORT\x7d\x60);",
    "\x7d);"
  ]

/-- Text of the template literal dbContent, written to src/config/db.js. -/
def dbContent : String :=
  joinLines [
    "import mongoose from \x27mongoose\x27;",
    "",
    "const connectDB = async () => \x7b",
    "  try \x7b",
    "    const conn = await mongoose.connect(process.env.MONGODB_URI, \x7b",
    "      useNewUrlParser: true,",
    "      useUnifiedTopology: true,",
    "    \x7d);",
    "    console.log(\x60MongoDB connecté: $\x7bconn.connection.host\x7d\x60);",
    "  \x7d catch (error) \x7b",
    "    console.error(\x60Erreur: $\x7berror.message\x7d\x60);",
    "    process.exit(1);",
    "  \x7d",
    "\x7d;",
    "",
    "export default connectDB;"
  ]

/-- Text of the template literal userModelContent, written to src/models/User.js. -/
def userModelContent : String :=
  joinLines [
    "import mongoose from \x27mongoose\x27;",
    "import bcrypt from \x27bcryptjs\x27;",
    "",
    "const userSchema = mongoose.Schema(",
    "  \x7b",
    "    name: \x7b",
    "      type: String,",
    "      required: true",
    "    \x7d,",
    "    email: \x7b",
    "      type: String,",
    "      required: true,",
    "      unique: true",
    "    \x7d,",
    "    password: \x7b",
    "      type: String,",
    "      required: true",
    "    \x7d,",
    "    isAdmin: \x7b",
    "      type: Boolean,",
    "      required: true,",
    "      default: false",
    "    \x7d",
    "  \x7d,",
    "  \x7b",
    "    timestamps: true",
    "  \x7d",
    ");",
    "",
    "// Middleware pour hasher le mot de passe avant sauvegarde",
    "userSchema.pre(\x27save\x27, async function (next) \x7b",
    "  if (!this.isModified(\x27password\x27)) \x7b",
    "    next();",
    "  \x7d",
    "  ",
    "  const salt = await bcrypt.genSalt(10);",
    "  this.password = await bcrypt.hash(this.password, salt);",
    "\x7d);",
    "",
    "// Méthode pour vérifier le mot de passe",
    "userSchema.methods.matchPassword = async function (enteredPassword) \x7b",
    "  return await bcrypt.compare(enteredPassword, this.password);",
    "\x7d;",
    "",
    "const User = mongoose.model(\x27User\x27, userSchema);",
    "",
    "export default User;"
  ]

/-- Text of the template literal userControllerContent, written to src/controllers/userController.js. -/
def userControllerContent : String :=
  joinLines [
    "import User from \x27../models/User.js\x27;",
    "import generateToken from \x27../utils/generateToken.js\x27;",
    "",
    "// @desc    Enregistrer un nouvel utilisateur",
    "// @route   POST /api/users",
    "// @access  Public",
    "export const registerUser = async (req, res) => \x7b",
    "  const \x7b name, email, password \x7d = req.body;",
    "",
    "  const userExists = await User.findOne(\x7b email \x7d);",
    "",
    "  if (userExists) \x7b",
    "    res.status(400);",
    "    throw new Error(\x27L\x27utilisateur existe déjà\x27);",
    "  \x7d",
    "",
    "  const user = await User.create(\x7b",
    "    name,",
    "    email,",
    "    password",
    "  \x7d);",
    "",
    "  if (user) \x7b",
    "    res.status(201).json(\x7b",
    "      _id: user._id,",
    "      name: user.name,",
    "      email: user.email,",
    "      isAdmin: user.isAdmin,",
    "      token: generateToken(user._id)",
    "    \x7d);",
    "  \x7d else \x7b",
    "    res.status(400);",
    "    throw new Error(\x27Données utilisateur invalides\x27);",
    "  \x7d",
    "\x7d;",
    "",
    "// @desc    Authentifier l\x27utilisateur & obtenir un token",
    "// @route   POST /api/users/login",
    "// @access  Public",
    "export const authUser = async (req, res) => \x7b",
    "  const \x7b email, password \x7d = req.body;",
    "",
    "  const user = await User.findOne(\x7b email \x7d);",
    "",
    "  if (user && (await user.matchPassword(password))) \x7b",
    "    res.json(\x7b",
    "      _id: user._id,",
    "      name: user.name,",
    "      email: user.email,",
    "      isAdmin: user.isAdmin,",
    "      token: generateToken(user._id)",
    "    \x7d);",
    "  \x7d else \x7b",
    "    res.status(401);",
    "    throw new Error(\x27Email ou mot de passe invalide\x27);",
    "  \x7d",
    "\x7d;",
    "",
    "// @desc    Obtenir le profil utilisateur",
    "// @route   GET /api/users/profile",
    "// @access  Private",
    "export const getUserProfile = async (req, res) => \x7b",
    "  const user = await User.findById(req.user._id);",
    "",
    "  if (user) \x7b",
    "    res.json(\x7b",
    "      _id: user._id,",
    "      name: user.name,",
    "      email: user.email,",
    "      isAdmin: user.isAdmin",
    "    \x7d);",
    "  \x7d else \x7b",
    "    res.status(404);",
    "    throw new Error(\x27Utilisateur non trouvé\x27);",
    "  \x7d",
    "\x7d;",
    "",
    "// @desc    Mettre à jour le profil utilisateur",
    "// @route   PUT /api/users/profile",
    "// @access  Private",
    "export const updateUserProfile = async (req, res) => \x7b",
    "  const user = await User.findById(req.user._id);",
    "",
    "  if (user) \x7b",
    "    user.name = req.body.name || user.name;",
    "    user.email = req.body.email || user.email;",
    "    ",
    "    if (req.body.password) \x7b",
    "      user.password = req.body.password;",
    "    \x7d",
    "",
    "    const updatedUser = await user.save();",
    "",
    "    res.json(\x7b",
    "      _id: updatedUser._id,",
    "      name: updatedUser.name,",
    "      email: updatedUser.email,",
    "      isAdmin: updatedUser.isAdmin,",
    "      token: generateToken(updatedUser._id)",
    "    \x7d);",
    "  \x7d else \x7b",
    "    res.status(404);",
    "    throw new Error(\x27Utilisateur non trouvé\x27);",
    "  \x7d",
    "\x7d;",
    "",
    "// @desc    Obtenir tous les utilisateurs",
    "// @route   GET /api/users",
    "// @access  Private/Admin",
    "export const getUsers = async (req, res) => \x7b",
    "  const users = await User.find(\x7b\x7d);",
    "  res.json(users);",
    "\x7d;",
    "",
    "// @desc    Supprimer un utilisateur",
    "// @route   DELETE /api/users/:id",
    "// @access  Private/Admin",
    "export const deleteUser = async (req, res) => \x7b",
    "  const user = await User.findById(req.params.id);",
    "",
    "  if (user) \x7b",
    "    await user.remove();",
    "    res.json(\x7b message: \x27Utilisateur supprimé\x27 \x7d);",
    "  \x7d else \x7b",
    "    res.status(404);",
    "    throw new Error(\x27Utilisateur non trouvé\x27);",
    "  \x7d",
    "\x7d;"
  ]

/-- Text of the template literal userRoutesContent, written to src/routes/userRoutes.js. -/
def userRoutesContent : String :=
  joinLines [
    "import express from \x27express\x27;",
    "import \x7b ",
    "  registerUser, ",
    "  authUser, ",
    "  getUserProfile, ",
    "  updateUserProfile, ",
    "  getUsers, ",
    "  deleteUser ",
    "\x7d from \x27../controllers/userController.js\x27;",
    "import \x7b protect, admin \x7d from \x27../middleware/authMiddleware.js\x27;",
    "",
    "const router = express.Router();",
    "",
    "router.route(\x27/\x27)",
    "  .post(registerUser)",
    "  .get(protect, admin, getUsers);",
    "",
    "router.post(\x27/login\x27, authUser);",
    "",
    "router.route(\x27/profile\x27)",
    "  .get(protect, getUserProfile)",
    "  .put(protect, updateUserProfile);",
    "",
    "router.route(\x27/:id\x27)",
    "  .delete(protect, admin, deleteUser);",
    "",
    "export default router;"
  ]

/-- Text of the template literal authMiddlewareContent, written to src/middleware/authMiddleware.js. -/
def authMiddlewareContent : String :=
  joinLines [
    "import jwt from \x27jsonwebtoken\x27;",
    "import User from \x27../models/User.js\x27;",
    "",
    "export const protect = async (req, res, next) => \x7b",
    "  let token;",
    "",
    "  if (",
    "    req.headers.authorization &&",
    "    req.headers.authorization.startsWith(\x27Bearer\x27)",
    "  ) \x7b",
    "    try \x7b",
    "      token = req.headers.authorization.split(\x27 \x27)[1];",
    "",
    "      const decoded = jwt.verify(token, process.env.JWT_SECRET);",
    "",
    "      req.user = await User.findById(decoded.id).select(\x27-password\x27);",
    "",
    "      next();",
    "    \x7d catch (error) \x7b",
    "      console.error(error);",
    "      res.status(401);",
    "      throw new Error(\x27Non autorisé, token invalide\x27);",
    "    \x7d",
    "  \x7d",
    "",
    "  if (!token) \x7b",
    "    res.status(401);",
    "    throw new Error(\x27Non autorisé, pas de token\x27);",
    "  \x7d",
    "\x7d;",
    "",
    "export const admin = (req, res, next) => \x7b",
    "  if (req.user && req.user.isAdmin) \x7b",
    "    next();",
    "  \x7d else \x7b",
    "    res.status(401);",
    "    throw new Error(\x27Non autorisé, privilèges administrateur requis\x27);",
    "  \x7d",
    "\x7d;"
  ]

/-- Text of the template literal generateTokenContent, written to src/utils/generateToken.js. -/
def generateTokenContent : String :=
  joinLines [
    "import jwt from \x27jsonwebtoken\x27;",
    "",
    "const generateToken = (id) => \x7b",
    "  return jwt.sign(\x7b id \x7d, process.env.JWT_SECRET, \x7b",
    "    expiresIn: \x2730d\x27",
    "  \x7d);",
    "\x7d;",
    "",
    "export default generateToken;"
  ]

/-! ## The generator -/

/-- The value assigned to `packageJson.scripts`. -/
def scriptsValue : Json :=
  Json.obj [("start", Json.str "node src/server.js"), ("dev", Json.str "nodemon src/server.js")]

/-- The array `directories` of the source. -/
def directories : List String :=
  ["src", "src/config", "src/controllers", "src/middleware", "src/models", "src/routes",
    "src/utils"]

/-- The command that initialises the manifest. -/
def npmInit : String := "npm init -y"

/-- The command that installs the runtime dependencies. -/
def npmInstall : String :=
  "npm install express mongoose dotenv cors helmet morgan jsonwebtoken bcryptjs"

/-- The command that installs the development dependencies. -/
def npmInstallDev : String := "npm install --save-dev nodemon"

/-- Creation of the project root and the move into it. -/
def setupStmts (projectPath : Path) : List Stmt :=
  [Stmt.mkdirSync projectPath, Stmt.chdir projectPath]

/-- The three external commands: manifest initialisation, runtime dependencies,
development dependencies. -/
def commandStmts : List Stmt :=
  [Stmt.execSync npmInit, Stmt.execSync npmInstall, Stmt.execSync npmInstallDev]

/-- The read-modify-write of `package.json`. -/
def patchStmts : List Stmt :=
  [Stmt.readPackageJson "package.json",
   Stmt.assign "scripts" scriptsValue,
   Stmt.assign "type" (Json.str "module"),
   Stmt.writePackageJson "package.json"]

/-- The loop `directories.forEach(dir => fs.mkdirSync(dir, { recursive: true }))`. -/
def directoryStmts : List Stmt := directories.map Stmt.mkdirRecursive

/-- The nine template writes, in source order. -/
def templateStmts (projectName : String) : List Stmt :=
  [Stmt.writeFileSync ".env" (envContent projectName),
   Stmt.writeFileSync ".gitignore" gitignoreContent,
   Stmt.writeFileSync "src/server.js" serverContent,
   Stmt.writeFileSync "src/config/db.js" dbContent,
   Stmt.writeFileSync "src/models/User.js" userModelContent,
   Stmt.writeFileSync "src/controllers/userController.js" userControllerContent,
   Stmt.writeFileSync "src/routes/userRoutes.js" userRoutesContent,
   Stmt.writeFileSync "src/middleware/authMiddleware.js" authMiddlewareContent,
   Stmt.writeFileSync "src/utils/generateToken.js" generateTokenContent]

/-- The statements of `generateProject` after the collision check, in source order. -/
def body (projectName : String) (projectPath : Path) : List Stmt :=
  setupStmts projectPath ++ commandStmts ++ patchStmts ++ directoryStmts ++
    templateStmts projectName

/-- How the promise returned by `generateProject` ends, or that the process was ended
from inside by `process.exit`. -/
inductive Outcome where
  | resolved
  | rejected
  | exited (code : Nat)
  deriving DecidableEq, Repr

/-- Model of `generateProject`, for the answer `projectName` to the prompt: the target
path is resolved against the working directory; if `fs.existsSync` finds it the process
exits with status 1 at once, otherwise the statements of `body` run.  (`fs.mkdirSync` and
`process.chdir` treat a path alike with and without a separator at its end, so the
statements take the node the path leads to.) -/
def generateProject (env : Env) (projectName : String) (s : State) : Outcome × State :=
  let projectPath := pathJoin s.cwd projectName
  if existsSyncJoin s.fs s.cwd projectName then (Outcome.exited 1, s)
  else
    match runStmts env (body projectName projectPath) s with
    | StepResult.next s1 => (Outcome.resolved, s1)
    | StepResult.throw s1 => (Outcome.rejected, s1)

/-- Model of `bin/cli.js`: the exit status of the process and its final state.  A rejected
promise is caught and turned into `process.exit(1)`. -/
def cli (env : Env) (projectName : String) (s : State) : Nat × State :=
  match generateProject env projectName s with
  | (Outcome.resolved, s1) => (0, s1)
  | (Outcome.rejected, s1) => (1, s1)
  | (Outcome.exited code, s1) => (code, s1)

/-- The files written by `fs.writeFileSync(file, content)` statements, with their content. -/
def templateWrites : List Stmt → List (String × String)
  | [] => []
  | Stmt.writeFileSync file content :: rest => (file, content) :: templateWrites rest
  | _ :: rest => templateWrites rest

/-- The relative paths of all the files a list of statements writes, the manifest
included. -/
def writtenFiles : List Stmt → List String
  | [] => []
  | Stmt.writeFileSync file _ :: rest => file :: writtenFiles rest
  | Stmt.writePackageJson file :: rest => file :: writtenFiles rest
  | _ :: rest => writtenFiles rest

/-- The content the generator writes to `file` for the project `n`, if `file` is one of
its templates. -/
def templateContent (n : String) (file : String) : Option String :=
  ((templateWrites (templateStmts n)).find? (fun e => decide (e.1 = file))).map (fun e => e.2)

/-! ## Vocabulary of the specification -/

/-- A project name as the specification wants it, non-empty and safe as the name of one
directory: not a dot segment, and free of path separators, line feeds and NUL.  The
generator itself does not check the name. -/
def ValidName (n : String) : Prop :=
  n ≠ "" ∧ n ≠ "." ∧ n ≠ ".." ∧ ∀ c ∈ n.data, c ≠ '/' ∧ c ≠ '\n' ∧ c ≠ '\x00'

instance (n : String) : Decidable (ValidName n) := by
  unfold ValidName; infer_instance

/-- The lines of a text. -/
def textLines (text : String) : List String :=
  (splitOnChar '\n' text.data).map String.mk

/-- The part of a URI after its last `/`. -/
def lastPathSegment (uri : String) : Option String := (segments uri).getLast?

/-- The relative paths, as segment lists, of everything the directory loop and the
template writes create: seven directories and nine files.  (The paths do not depend on
the project name.) -/
def catalogPaths : List (List String) :=
  directories.map segments ++ (writtenFiles (templateStmts "")).map segments

/-- Whether `p` is a file with content: a populated file. -/
def populated (fs : FS) (p : Path) : Bool :=
  match fs.get p with
  | some (Node.file content) => decide (content ≠ "")
  | _ => false

/-- The populated files of the file system that lie strictly below `dir`. -/
def populatedFilesUnder (fs : FS) (dir : Path) : List Path :=
  (fs.entries.filter (fun e =>
    decide (dir <+: e.1) && decide (dir ≠ e.1) && populated fs e.1)).map (fun e => e.1)

/-! ## Sample environments -/

/-- Text of the manifest left by the sample `npm init -y`. -/
def demoManifestText : String :=
  "\x7b\"name\":\"shop-api\",\"version\":\"1.0.0\",\"scripts\":\x7b\"test\":\"exit 1\"\x7d\x7d"

/-- The document `demoManifestText` denotes. -/
def demoManifest : Json :=
  Json.obj [("name", Json.str "shop-api"), ("version", Json.str "1.0.0"),
    ("scripts", Json.obj [("test", Json.str "exit 1")])]

/-- A sample environment in which everything works: `npm init -y` leaves a manifest with a
default `test` script, the two installations leave `node_modules` and a lock file, no path
is refused.  Its JSON reader knows the one manifest text; its printer is a stand-in that
lists the member names of an object. -/
def demoEnv : Env where
  exec := fun command cwd fs =>
    if command = npmInit then
      (true, fs.set (cwd ++ ["package.json"]) (Node.file demoManifestText))
    else
      (true, (fs.set (cwd ++ ["node_modules"]) Node.dir).set (cwd ++ ["package-lock.json"])
        (Node.file "lock"))
  denied := fun _ => false
  refusedWrite := fun _ _ => none
  jsonParse := fun text => if text = demoManifestText then some demoManifest else none
  jsonStringify := fun doc =>
    match doc with
    | Json.obj members => String.intercalate "," (members.map (fun m => m.1))
    | _ => "?"

/-- A sample environment in which the installation of the runtime dependencies fails
after it has created `node_modules`. -/
def brokenInstallEnv : Env where
  exec := fun command cwd fs =>
    if command = npmInit then
      (true, fs.set (cwd ++ ["package.json"]) (Node.file demoManifestText))
    else if command = npmInstall then
      (false, fs.set (cwd ++ ["node_modules"]) Node.dir)
    else (true, fs)
  denied := demoEnv.denied
  refusedWrite := demoEnv.refusedWrite
  jsonParse := demoEnv.jsonParse
  jsonStringify := demoEnv.jsonStringify

/-- A sample environment in which the disk is full for `package.json`: the commands work as
in `demoEnv`, but a write to a file of that name is refused after the file has been opened,
so that the file is left empty. -/
def diskFullEnv : Env where
  exec := demoEnv.exec
  denied := fun p => decide (p.getLast? = some "package.json")
  refusedWrite := fun _ _ => some ""
  jsonParse := demoEnv.jsonParse
  jsonStringify := demoEnv.jsonStringify

/-- A sample process: started in `/home/dev`, which exists and is empty. -/
def demoState : State :=
  State.initial ⟨[([], Node.dir), (["home"], Node.dir), (["home", "dev"], Node.dir)]⟩
    ["home", "dev"]

/-- Whether a relative path lies below the directory `src`. -/
def underSrc (file : String) : Bool :=
  decide ((segments file).head? = some "src") && decide (1 < (segments file).length)

/-- The statements of the directory loop and of the template writes: the ones that only
add directories and files below the working directory. -/
def Stmt.isTail : Stmt → Bool
  | Stmt.mkdirRecursive _ => true
  | Stmt.writeFileSync _ _ => true
  | _ => false


/-! ## Lemmas on paths and the file system -/

theorem splitOnChar_ne_nil (sep : Char) (cs : List Char) : splitOnChar sep cs ≠ [] := by
  induction cs with
  | nil => simp [splitOnChar]
  | cons c cs ih =>
    unfold splitOnChar
    split
    · simp
    · split <;> simp

theorem splitOnChar_of_not_mem (sep : Char) (cs : List Char) (h : sep ∉ cs) :
    splitOnChar sep cs = [cs] := by
  induction cs with
  | nil => rfl
  | cons c cs ih =>
    have hc : c ≠ sep := fun e => h (by simp [e])
    have hcs : sep ∉ cs := fun e => h (by simp [e])
    simp [splitOnChar, hc, ih hcs]

theorem splitOnChar_append_sep (sep : Char) (pre post : List Char) (h : sep ∉ pre) :
    splitOnChar sep (pre ++ sep :: post) = pre :: splitOnChar sep post := by
  induction pre with
  | nil => simp [splitOnChar]
  | cons c cs ih =>
    have hc : c ≠ sep := fun e => h (by simp [e])
    have hcs : sep ∉ cs := fun e => h (by simp [e])
    simp [splitOnChar, hc, ih hcs]

theorem getLast?_cons_of_ne_nil {α : Type} (a : α) (l : List α) (h : l ≠ []) :
    (a :: l).getLast? = l.getLast? := by
  cases l with
  | nil => exact absurd rfl h
  | cons b l => simp [List.getLast?_cons_cons]

theorem splitOnChar_two_le (sep : Char) (pre post : List Char) :
    2 ≤ (splitOnChar sep (pre ++ sep :: post)).length := by
  induction pre with
  | nil =>
    have hne := splitOnChar_ne_nil sep post
    have : 0 < (splitOnChar sep post).length := List.length_pos.mpr hne
    simp only [List.nil_append, splitOnChar, if_true, List.length_cons]
    omega
  | cons c cs ih =>
    show 2 ≤ (splitOnChar sep (c :: (cs ++ sep :: post))).length
    unfold splitOnChar
    split
    · simp only [List.length_cons]; omega
    · split
      · rename_i hsp; rw [hsp] at ih; simp at ih
      · rename_i hsp; rw [hsp] at ih; simpa using ih

theorem splitOnChar_append_last (sep : Char) (pre post : List Char) (h : sep ∉ post) :
    (splitOnChar sep (pre ++ sep :: post)).getLast? = some post := by
  induction pre with
  | nil => simp [splitOnChar, splitOnChar_of_not_mem sep post h]
  | cons c cs ih =>
    have hne := splitOnChar_ne_nil sep (cs ++ sep :: post)
    have hlen := splitOnChar_two_le sep cs post
    show (splitOnChar sep (c :: (cs ++ sep :: post))).getLast? = some post
    unfold splitOnChar
    split
    · rw [getLast?_cons_of_ne_nil _ _ hne]; exact ih
    · split
      · rename_i hsp; exact absurd hsp hne
      · rename_i seg rest hsp
        rw [hsp] at ih hlen
        cases rest with
        | nil => simp at hlen
        | cons seg2 rest2 =>
          simp only [List.getLast?_cons_cons] at ih ⊢
          exact ih

theorem segments_of_no_separator (n : String) (h : '/' ∉ n.data) : segments n = [n] := by
  simp [segments, splitOnChar_of_not_mem _ _ h]

theorem pathJoin_validName (base : Path) (n : String) (h : ValidName n) :
    pathJoin base n = base ++ [n] := by
  obtain ⟨h1, h2, h3, h4⟩ := h
  have hs : '/' ∉ n.data := fun hm => (h4 _ hm).1 rfl
  simp [pathJoin, segments_of_no_separator n hs, applySegment, h1, h2, h3]

theorem pathJoin_empty (base : Path) : pathJoin base "" = base := by
  simp [pathJoin, segments, splitOnChar, applySegment]

theorem FS.find_filter_ne (l : List (Path × Node)) (p q : Path) (h : q ≠ p) :
    (l.filter (fun e => decide (e.1 ≠ p))).find? (fun e => decide (e.1 = q)) =
      l.find? (fun e => decide (e.1 = q)) := by
  induction l with
  | nil => rfl
  | cons e l ih =>
    by_cases hp : e.1 = p
    · have hq : e.1 ≠ q := fun e2 => h (e2 ▸ hp)
      rw [List.filter_cons, List.find?_cons]
      simp only [hp, ne_eq, not_true_eq_false, decide_False, hq]
      have hq2 : ¬ p = q := fun e2 => h e2.symm
      simp only [hq2, decide_False]
      simpa [hp] using ih
    · by_cases hq : e.1 = q
      · rw [List.filter_cons, List.find?_cons]
        simp [hp, hq, h]
      · rw [List.filter_cons, List.find?_cons]
        simp only [ne_eq, hp, not_false_eq_true, decide_True, if_true, List.find?_cons, hq,
          decide_False]
        exact ih

theorem FS.get_set (fs : FS) (p q : Path) (v : Node) :
    (fs.set p v).get q = if q = p then some v else fs.get q := by
  by_cases h : q = p
  · simp [FS.get, FS.set, h]
  · have h2 : ¬ p = q := fun e => h e.symm
    simp only [FS.get, FS.set, List.find?, h2, decide_False, h, if_false]
    rw [FS.find_filter_ne _ _ _ h]

theorem lookupMember_assign_same (key : String) (value : Json) (members : List (String × Json)) :
    lookupMember key (assignMember key value members) = some value := by
  induction members with
  | nil => simp [assignMember, lookupMember]
  | cons m rest ih =>
    obtain ⟨k, v⟩ := m
    by_cases h : k = key
    · simp [assignMember, lookupMember, h]
    · simp [assignMember, lookupMember, h, ih]

theorem lookupMember_assign_other (key other : String) (value : Json)
    (members : List (String × Json)) (h : other ≠ key) :
    lookupMember other (assignMember key value members) = lookupMember other members := by
  induction members with
  | nil =>
    have h2 : ¬ key = other := fun e => h e.symm
    simp [assignMember, lookupMember, h2]
  | cons m rest ih =>
    obtain ⟨k, v⟩ := m
    by_cases hk : k = key
    · have h2 : ¬ key = other := fun e => h e.symm
      simp [assignMember, lookupMember, hk, h2]
    · by_cases ho : k = other
      · subst ho
        simp [assignMember, lookupMember, hk]
      · simp [assignMember, lookupMember, hk, ho, ih]

/-! ## Lemmas on running statements -/

theorem Stmt.effect_log (env : Env) (st : Stmt) (s : State) :
    (st.effect env s).state.log = s.log := by
  cases st <;> simp only [Stmt.effect] <;> (repeat' split) <;> rfl

theorem Stmt.run_log (env : Env) (st : Stmt) (s : State) :
    (st.run env s).state.log = s.log ++ [st] := by
  simp [Stmt.run, Stmt.effect_log]

theorem runStmts_append (env : Env) (l1 l2 : List Stmt) (s : State) :
    runStmts env (l1 ++ l2) s =
      match runStmts env l1 s with
      | StepResult.next s1 => runStmts env l2 s1
      | StepResult.throw s1 => StepResult.throw s1 := by
  induction l1 generalizing s with
  | nil => rfl
  | cons st rest ih =>
    simp only [List.cons_append, runStmts]
    cases st.run env s with
    | next s1 => exact ih s1
    | throw s1 => rfl

theorem runStmts_next_log (env : Env) (l : List Stmt) (s s1 : State)
    (h : runStmts env l s = StepResult.next s1) : s1.log = s.log ++ l := by
  induction l generalizing s with
  | nil => simp only [runStmts, StepResult.next.injEq] at h; simp [← h]
  | cons st rest ih =>
    simp only [runStmts] at h
    have hl := Stmt.run_log env st s
    cases hr : st.run env s with
    | next s2 =>
      rw [hr] at h hl
      simp only [StepResult.state] at hl
      rw [ih s2 h, hl]; simp
    | throw s2 => rw [hr] at h; cases h

theorem runStmts_throw_split (env : Env) (l : List Stmt) (s s2 : State)
    (h : runStmts env l s = StepResult.throw s2) :
    ∃ l1 st l2 s1, l = l1 ++ st :: l2 ∧ runStmts env l1 s = StepResult.next s1 ∧
      st.run env s1 = StepResult.throw s2 := by
  induction l generalizing s with
  | nil => simp [runStmts] at h
  | cons st rest ih =>
    simp only [runStmts] at h
    cases hr : st.run env s with
    | next s3 =>
      rw [hr] at h
      obtain ⟨l1, st1, l2, s1, hl, hn, ht⟩ := ih s3 h
      refine ⟨st :: l1, st1, l2, s1, by simp [hl], ?_, ht⟩
      simp [runStmts, hr, hn]
    | throw s3 =>
      rw [hr] at h
      cases h
      exact ⟨[], st, rest, s, rfl, rfl, hr⟩

theorem runStmts_log_initial (env : Env) (l : List Stmt) (s : State) :
    ∃ l1, l1 <+: l ∧ (runStmts env l s).state.log = s.log ++ l1 := by
  cases hr : runStmts env l s with
  | next s1 =>
    exact ⟨l, List.prefix_refl l, by simpa [StepResult.state] using runStmts_next_log env l s s1 hr⟩
  | throw s2 =>
    obtain ⟨l1, st, l2, s1, hl, hn, ht⟩ := runStmts_throw_split env l s s2 hr
    refine ⟨l1 ++ [st], ?_, ?_⟩
    · rw [hl]; exact ⟨l2, by simp⟩
    · have h1 := runStmts_next_log env l1 s s1 hn
      have h2 := Stmt.run_log env st s1
      rw [ht] at h2
      simp only [StepResult.state] at h2 ⊢
      rw [h2, h1]; simp

theorem String.data_append_eq (a b : String) : (a ++ b).data = a.data ++ b.data := rfl

theorem pathJoin_packageJson (c : Path) : pathJoin c "package.json" = c ++ ["package.json"] := by
  simp [pathJoin, segments, splitOnChar, applySegment]

theorem parentDir_concat (c : Path) (x : String) : parentDir (c ++ [x]) = c := by
  simp [parentDir]

theorem cli_state (env : Env) (n : String) (s : State) :
    (cli env n s).2 = (generateProject env n s).2 := by
  unfold cli
  rcases hg : generateProject env n s with ⟨o, s1⟩
  cases o <;> rfl

theorem generateProject_log (env : Env) (n : String) (s : State) :
    ∃ l1, l1 <+: body n (pathJoin s.cwd n) ∧ (generateProject env n s).2.log = s.log ++ l1 := by
  unfold generateProject
  by_cases hex : existsSyncJoin s.fs s.cwd n = true
  · exact ⟨[], List.nil_prefix, by simp [hex]⟩
  · obtain ⟨l1, hp, hl⟩ := runStmts_log_initial env (body n (pathJoin s.cwd n)) s
    refine ⟨l1, hp, ?_⟩
    simp only [hex]
    cases hr : runStmts env (body n (pathJoin s.cwd n)) s with
    | next s1 => rw [hr] at hl; simpa [StepResult.state] using hl
    | throw s1 => rw [hr] at hl; simpa [StepResult.state] using hl

theorem cli_log_mem_body (env : Env) (n : String) (fs : FS) (cwd : Path) (st : Stmt)
    (h : st ∈ (cli env n (State.initial fs cwd)).2.log) : st ∈ body n (pathJoin cwd n) := by
  obtain ⟨l1, hp, hl⟩ := generateProject_log env n (State.initial fs cwd)
  rw [cli_state, hl] at h
  simp only [State.initial, List.nil_append] at h
  exact hp.subset h

theorem mem_body_write (n : String) (p : Path) (file content : String)
    (h : Stmt.writeFileSync file content ∈ body n p) :
    templateContent n file = some content := by
  simp only [body, templateStmts, setupStmts, commandStmts, patchStmts, directoryStmts,
    directories, List.map, List.mem_append, List.mem_cons, List.mem_singleton,
    List.not_mem_nil, Stmt.writeFileSync.injEq, or_false, false_or, reduceCtorEq] at h
  rcases h with h | h | h | h | h | h | h | h | h <;> obtain ⟨h1, h2⟩ := h <;> rw [h1, h2] <;>
    simp [templateContent, templateWrites, templateStmts]

theorem envContent_injective (n m : String) (h : envContent n = envContent m) : n = m := by
  have h1 : (envContent n).data = (envContent m).data := by rw [h]
  simp only [envContent, String.data_append_eq] at h1
  have h2 := List.append_cancel_right h1
  have h3 := List.append_cancel_left h2
  exact String.ext h3

theorem pathJoin_eq_append (c : Path) (p : String)
    (h : ∀ seg ∈ segments p, seg ≠ "" ∧ seg ≠ "." ∧ seg ≠ "..") :
    pathJoin c p = c ++ segments p := by
  unfold pathJoin
  generalize segments p = segs at h
  induction segs generalizing c with
  | nil => simp
  | cons seg rest ih =>
    have h1 := h seg (by simp)
    have h2 : ∀ x ∈ rest, x ≠ "" ∧ x ≠ "." ∧ x ≠ ".." := fun x hx => h x (by simp [hx])
    simp [List.foldl, applySegment, h1.1, h1.2.1, h1.2.2, ih _ h2]

theorem joinLines_ne_empty (line : String) (rest : List String) (h : line ≠ "") :
    joinLines (line :: rest) ≠ "" := by
  cases rest with
  | nil => simpa [joinLines] using h
  | cons l2 rest =>
    intro he
    have hd : (joinLines (line :: l2 :: rest)).data = [] := by rw [he]
    simp only [joinLines, String.data_append_eq, List.append_eq_nil] at hd
    exact h (String.ext hd.1.1)

theorem envContent_ne_empty (n : String) : envContent n ≠ "" := by
  intro he
  have hd : (envContent n).data = [] := by rw [he]
  simp [envContent, String.data_append_eq] at hd

/-! ### Directories survive the generator's own calls -/

theorem writeFile_keeps_dirs (env : Env) (p : Path) (content : String) (fs : FS)
    (q : Path) (hq : fs.get q = some Node.dir) :
    (writeFile env p content fs).2.get q = some Node.dir := by
  unfold writeFile
  split
  · exact hq
  · rename_i hnd
    have hne : q ≠ p := fun e => hnd (e ▸ hq)
    split
    · exact hq
    · split
      · split
        · exact hq
        · simp [FS.get_set, hne, hq]
      · simp [FS.get_set, hne, hq]

theorem writeFile_true (env : Env) (p : Path) (content : String) (fs fs1 : FS)
    (h : writeFile env p content fs = (true, fs1)) :
    fs.get (parentDir p) = some Node.dir ∧ fs.get p ≠ some Node.dir ∧
      fs1 = fs.set p (Node.file content) := by
  unfold writeFile at h
  split at h
  · cases h
  · split at h
    · cases h
    · rename_i h2 h3
      split at h
      · split at h <;> cases h
      · cases h
        exact ⟨by simpa using h3, h2, rfl⟩

theorem writeFile_false (env : Env) (p : Path) (content : String) (fs fs1 : FS)
    (h : writeFile env p content fs = (false, fs1)) :
    fs1 = fs ∨ (fs.get p ≠ some Node.dir ∧ ∃ left, fs1 = fs.set p (Node.file left)) := by
  unfold writeFile at h
  split at h
  · cases h; exact Or.inl rfl
  · rename_i hnd
    split at h
    · cases h; exact Or.inl rfl
    · split at h
      · split at h
        · cases h; exact Or.inl rfl
        · cases h; exact Or.inr ⟨hnd, _, rfl⟩
      · cases h

theorem writeFile_get_other (env : Env) (p q : Path) (content : String) (fs : FS)
    (hq : q ≠ p) : (writeFile env p content fs).2.get q = fs.get q := by
  unfold writeFile
  split
  · rfl
  · split
    · rfl
    · split
      · split
        · rfl
        · simp [FS.get_set, hq]
      · simp [FS.get_set, hq]

theorem mkdirP_keeps_dirs (env : Env) (segs : List String) (base : Path) (fs : FS) (q : Path)
    (hq : fs.get q = some Node.dir) : (mkdirP env base segs fs).2.get q = some Node.dir := by
  induction segs generalizing base fs with
  | nil => simpa [mkdirP] using hq
  | cons seg rest ih =>
    unfold mkdirP
    split
    · exact ih _ _ hq
    · exact hq
    · split
      · exact hq
      · split
        · exact hq
        · apply ih
          rename_i hnone _ _
          have hne : q ≠ base ++ [seg] := fun e => by rw [e, hnone] at hq; cases hq
          simp [FS.get_set, hne, hq]

theorem mkdirP_creates (env : Env) (segs : List String) (base : Path) (fs fs1 : FS)
    (hbase : fs.get base = some Node.dir)
    (h : mkdirP env base segs fs = (true, fs1)) : fs1.get (base ++ segs) = some Node.dir := by
  induction segs generalizing base fs with
  | nil =>
    simp only [mkdirP, Prod.mk.injEq, true_and] at h
    simpa [← h] using hbase
  | cons seg rest ih =>
    unfold mkdirP at h
    split at h
    · rename_i hd
      have := ih _ _ hd h
      simpa using this
    · cases h
    · split at h
      · cases h
      · split at h
        · cases h
        · have := ih (base ++ [seg]) (fs.set (base ++ [seg]) Node.dir) (by simp [FS.get_set]) h
          simpa using this

theorem mkdirP_one_atomic (env : Env) (base : Path) (seg : String) (fs fs1 : FS)
    (h : mkdirP env base [seg] fs = (false, fs1)) : fs1 = fs := by
  unfold mkdirP at h
  split at h
  · simp [mkdirP] at h
  · cases h; rfl
  · split at h
    · cases h; rfl
    · split at h
      · cases h; rfl
      · simp [mkdirP] at h

theorem mkdirP_two_atomic (env : Env) (base : Path) (seg1 seg2 : String) (fs fs1 : FS)
    (hd : fs.get (base ++ [seg1]) = some Node.dir)
    (h : mkdirP env base [seg1, seg2] fs = (false, fs1)) : fs1 = fs := by
  unfold mkdirP at h
  simp only [hd] at h
  exact mkdirP_one_atomic env _ _ _ _ h

/-! ### The run in which every step succeeds -/

set_option maxHeartbeats 1600000 in
set_option maxRecDepth 4000 in
theorem run_body_success (env : Env) (n : String) (s : State) (r : Path)
    (fs1 fs2 fs3 : FS) (text : String) (members : List (String × Json))
    (hnul : nameHasNul r = false)
    (hfree : s.fs.get r = none)
    (hparent : s.fs.get (parentDir r) = some Node.dir)
    (hperm : ∀ p, env.denied (r ++ p) = false)
    (h1 : env.exec npmInit r (s.fs.set r Node.dir) = (true, fs1))
    (h2 : env.exec npmInstall r fs1 = (true, fs2))
    (h3 : env.exec npmInstallDev r fs2 = (true, fs3))
    (hroot : fs3.get r = some Node.dir)
    (hmanifest : fs3.get (r ++ ["package.json"]) = some (Node.file text))
    (hparse : env.jsonParse text = some (Json.obj members))
    (hclear : ∀ p ∈ catalogPaths, fs3.get (r ++ p) = none) :
    ∃ s1, runStmts env (body n r) s = StepResult.next s1 ∧
      s1.cwd = r ∧
      (∀ d ∈ directories, s1.fs.get (r ++ segments d) = some Node.dir) ∧
      (∀ e ∈ templateWrites (templateStmts n),
        s1.fs.get (r ++ segments e.1) = some (Node.file e.2)) ∧
      s1.fs.get (r ++ ["package.json"]) = some (Node.file (env.jsonStringify (Json.obj
        (assignMember "type" (Json.str "module")
          (assignMember "scripts" scriptsValue members))))) ∧
      (∀ q, q ≠ r ++ ["package.json"] → (∀ p ∈ catalogPaths, q ≠ r ++ p) →
        s1.fs.get q = fs3.get q) := by
  have hpermRoot : env.denied r = false := by simpa using hperm []
  simp only [catalogPaths, directories, writtenFiles, templateStmts, List.map, List.mem_append,
    List.mem_cons, List.mem_singleton, List.not_mem_nil, or_false, forall_eq_or_imp, forall_eq,
    List.cons_append, List.nil_append]
  simp only [catalogPaths, directories, writtenFiles, templateStmts, List.map, List.mem_append,
    List.mem_cons, List.mem_singleton, List.not_mem_nil, or_false, forall_eq_or_imp, forall_eq,
    List.cons_append, List.nil_append] at hclear
  simp [segments, splitOnChar] at hclear
  simp only [parentDir] at hparent
  obtain ⟨c1, c2, c3, c4, c5, c6, c7, c8, c9, c10, c11, c12, c13, c14, c15, c16⟩ := hclear
  simp [body, setupStmts, commandStmts, patchStmts, directoryStmts, directories, templateStmts,
    runStmts, Stmt.run, Stmt.effect, mkdirPlain, hnul, hfree, hparent, hpermRoot, hperm, h1, h2,
    h3,
    FS.get_set, hroot, hmanifest, hparse, readFile, writeFile, parentDir, pathJoin, segments,
    splitOnChar, applySegment, setProperty, mkdirP, templateWrites,
    c1, c2, c3, c4, c5, c6, c7, c8, c9, c10, c11, c12, c13, c14, c15, c16]
  intro q hq h1 h2 h3 h4 h5 h6 h7 h8 h9 h10 h11 h12 h13 h14 h15 h16
  simp [hq, h1, h2, h3, h4, h5, h6, h7, h8, h9, h10, h11, h12, h13, h14, h15, h16]

theorem templates_populated (n : String) :
    ∀ e ∈ templateWrites (templateStmts n), e.2 ≠ "" := by
  intro e he
  simp only [templateStmts, templateWrites, List.mem_cons, List.mem_singleton,
    List.not_mem_nil, or_false] at he
  rcases he with h | h | h | h | h | h | h | h | h <;> rw [h]
  · exact envContent_ne_empty n
  · unfold gitignoreContent; exact joinLines_ne_empty _ _ (by decide)
  · unfold serverContent; exact joinLines_ne_empty _ _ (by decide)
  · unfold dbContent; exact joinLines_ne_empty _ _ (by decide)
  · unfold userModelContent; exact joinLines_ne_empty _ _ (by decide)
  · unfold userControllerContent; exact joinLines_ne_empty _ _ (by decide)
  · unfold userRoutesContent; exact joinLines_ne_empty _ _ (by decide)
  · unfold authMiddlewareContent; exact joinLines_ne_empty _ _ (by decide)
  · unfold generateTokenContent; exact joinLines_ne_empty _ _ (by decide)

theorem cli_of_run_next (env : Env) (n : String) (s s1 : State)
    (hfree : existsSyncJoin s.fs s.cwd n = false)
    (hrun : runStmts env (body n (pathJoin s.cwd n)) s = StepResult.next s1) :
    cli env n s = (0, s1) := by
  simp [cli, generateProject, hfree, hrun]

theorem cli_of_run_throw (env : Env) (n : String) (s s1 : State)
    (hfree : existsSyncJoin s.fs s.cwd n = false)
    (hrun : runStmts env (body n (pathJoin s.cwd n)) s = StepResult.throw s1) :
    cli env n s = (1, s1) := by
  simp [cli, generateProject, hfree, hrun]

theorem get_of_not_exists (fs : FS) (p : Path) (h : existsSync fs p = false) :
    fs.get p = none := by
  unfold existsSync at h
  cases hg : fs.get p with
  | none => rfl
  | some v => rw [hg] at h; cases h

theorem endsInSeparator_validName (n : String) (h : ValidName n) :
    endsInSeparator n = false := by
  obtain ⟨-, -, -, h4⟩ := h
  unfold endsInSeparator
  rw [decide_eq_false_iff_not]
  intro hl
  exact (h4 '/' (List.mem_of_getLast?_eq_some hl)).1 rfl

theorem existsSyncJoin_free (fs : FS) (base : Path) (n : String) (h : ValidName n)
    (hfree : existsSync fs (pathJoin base n) = false) : existsSyncJoin fs base n = false := by
  simp [existsSyncJoin, endsInSeparator_validName n h, hfree]

theorem walkable_self (fs : FS) (base : Path) : walkable fs base base = true := by
  unfold walkable
  rw [List.all_eq_true]
  intro k hk
  have hlt : k < base.length := List.mem_range.mp hk
  rw [decide_eq_true_iff]
  refine Or.inl ⟨List.take_prefix k base, fun e => ?_⟩
  have := congrArg List.length e
  rw [List.length_take] at this
  omega

theorem existsSyncJoin_empty (fs : FS) (base : Path) :
    existsSyncJoin fs base "" = existsSync fs base := by
  have hp := pathJoin_empty base
  have he : endsInSeparator "" = false := by decide
  simp [existsSyncJoin, hp, he, walkable_self]

theorem nameHasNul_validName (base : Path) (n : String) (h : ValidName n) :
    nameHasNul (pathJoin base n) = false := by
  rw [pathJoin_validName base n h]
  obtain ⟨-, -, -, h4⟩ := h
  unfold nameHasNul
  simp only [List.getLast?_append, List.getLast?_singleton, Option.or_some]
  rw [decide_eq_false_iff_not]
  intro hm
  exact (h4 _ hm).2.2 rfl

theorem mkdirP_creates_cons (env : Env) (seg : String) (rest : List String) (base : Path)
    (fs fs1 : FS) (h : mkdirP env base (seg :: rest) fs = (true, fs1)) :
    fs1.get (base ++ seg :: rest) = some Node.dir := by
  unfold mkdirP at h
  split at h
  · rename_i hd
    simpa using mkdirP_creates env rest _ _ _ hd h
  · cases h
  · split at h
    · cases h
    · split at h
      · cases h
      · simpa using mkdirP_creates env rest (base ++ [seg]) (fs.set (base ++ [seg]) Node.dir)
          fs1 (by simp [FS.get_set]) h

theorem Stmt.run_tail_keeps (env : Env) (st : Stmt) (s s1 : State) (ht : st.isTail = true)
    (h : st.run env s = StepResult.next s1) :
    s1.cwd = s.cwd ∧ ∀ q, s.fs.get q = some Node.dir → s1.fs.get q = some Node.dir := by
  cases st with
  | mkdirRecursive dir =>
    simp only [Stmt.run, Stmt.effect] at h
    split at h
    · rename_i fs hm
      cases h
      refine ⟨rfl, fun q hq => ?_⟩
      have := mkdirP_keeps_dirs env (segments dir) s.cwd s.fs q hq
      simpa [hm] using this
    · cases h
  | writeFileSync file content =>
    simp only [Stmt.run, Stmt.effect] at h
    split at h
    · rename_i fs hw
      cases h
      refine ⟨rfl, fun q hq => ?_⟩
      have := writeFile_keeps_dirs env (pathJoin s.cwd file) content s.fs q hq
      simpa [hw] using this
    · cases h
  | mkdirSync _ => cases ht
  | chdir _ => cases ht
  | execSync _ => cases ht
  | readPackageJson _ => cases ht
  | assign _ _ => cases ht
  | writePackageJson _ => cases ht

theorem runStmts_tail_keeps (env : Env) (l : List Stmt) (s s1 : State)
    (ht : ∀ st ∈ l, st.isTail = true) (h : runStmts env l s = StepResult.next s1) :
    s1.cwd = s.cwd ∧ ∀ q, s.fs.get q = some Node.dir → s1.fs.get q = some Node.dir := by
  induction l generalizing s with
  | nil =>
    simp only [runStmts, StepResult.next.injEq] at h
    subst h
    exact ⟨rfl, fun _ hq => hq⟩
  | cons st rest ih =>
    simp only [runStmts] at h
    cases hr : st.run env s with
    | next s2 =>
      rw [hr] at h
      obtain ⟨hc2, hk2⟩ := Stmt.run_tail_keeps env st s s2 (ht st (by simp)) hr
      obtain ⟨hc1, hk1⟩ := ih s2 (fun x hx => ht x (by simp [hx])) h
      exact ⟨hc1.trans hc2, fun q hq => hk1 q (hk2 q hq)⟩
    | throw s2 => rw [hr] at h; cases h

theorem Stmt.run_mkdirRecursive_creates (env : Env) (dir : String) (s s1 : State)
    (h : (Stmt.mkdirRecursive dir).run env s = StepResult.next s1) :
    s1.fs.get (s.cwd ++ segments dir) = some Node.dir := by
  simp only [Stmt.run, Stmt.effect] at h
  split at h
  · rename_i fs hm
    cases h
    have hne := splitOnChar_ne_nil '/' dir.data
    cases hs : segments dir with
    | nil => simp [segments, hne] at hs
    | cons seg rest =>
      rw [hs] at hm
      exact mkdirP_creates_cons env seg rest _ _ _ hm
  · cases h

theorem runStmts_mkdirs_create (env : Env) (dirs : List String) (s s1 : State)
    (h : runStmts env (dirs.map Stmt.mkdirRecursive) s = StepResult.next s1) :
    ∀ d ∈ dirs, s1.fs.get (s.cwd ++ segments d) = some Node.dir := by
  induction dirs generalizing s with
  | nil => intro d hd; cases hd
  | cons d0 rest ih =>
    simp only [List.map, runStmts] at h
    cases hr : (Stmt.mkdirRecursive d0).run env s with
    | next s2 =>
      rw [hr] at h
      have hmade := Stmt.run_mkdirRecursive_creates env d0 s s2 hr
      obtain ⟨hc, -⟩ := Stmt.run_tail_keeps env (Stmt.mkdirRecursive d0) s s2 rfl hr
      obtain ⟨-, hk⟩ := runStmts_tail_keeps env _ s2 s1 (by simp [Stmt.isTail]) h
      intro d hd
      rcases List.mem_cons.mp hd with rfl | hd
      · exact hk _ hmade
      · rw [← hc]; exact ih s2 h d hd
    | throw s2 => rw [hr] at h; cases h

/-- After the loop has passed `src`, that directory exists for the rest of the loop. -/
theorem src_dir_in_loop (env : Env) (pre rest : List Stmt) (s s1 : State)
    (hrest : ∀ st ∈ rest, st.isTail = true)
    (h : runStmts env (pre ++ Stmt.mkdirRecursive "src" :: rest) s = StepResult.next s1) :
    s1.fs.get (s1.cwd ++ ["src"]) = some Node.dir := by
  rw [runStmts_append] at h
  cases hp : runStmts env pre s with
  | next s2 =>
    rw [hp] at h
    simp only [runStmts] at h
    cases hr : (Stmt.mkdirRecursive "src").run env s2 with
    | next s3 =>
      rw [hr] at h
      have hmade := Stmt.run_mkdirRecursive_creates env "src" s2 s3 hr
      obtain ⟨hc3, -⟩ := Stmt.run_tail_keeps env (Stmt.mkdirRecursive "src") s2 s3 rfl hr
      obtain ⟨hc1, hk⟩ := runStmts_tail_keeps env rest s3 s1 hrest h
      rw [hc1, hc3]
      exact hk _ (by simpa [segments, splitOnChar] using hmade)
    | throw s3 => rw [hr] at h; cases h
  | throw s2 => rw [hp] at h; cases h

/-! ### What a statement that throws leaves behind -/

theorem Stmt.run_throw_frame (env : Env) (st : Stmt) (s s2 : State)
    (h : st.run env s = StepResult.throw s2) :
    s2.cwd = s.cwd ∧ s2.packageJson = s.packageJson ∧ s2.log = s.log ++ [st] := by
  cases st <;> simp only [Stmt.run, Stmt.effect] at h <;> (repeat' split at h) <;>
    cases h <;> exact ⟨rfl, rfl, rfl⟩

theorem Stmt.run_throw_fs (env : Env) (st : Stmt) (s s2 : State)
    (h : st.run env s = StepResult.throw s2) :
    match st with
    | Stmt.execSync command => s2.fs = (env.exec command s.cwd s.fs).2
    | Stmt.mkdirRecursive dir => s2.fs = (mkdirP env s.cwd (segments dir) s.fs).2
    | Stmt.writeFileSync file _ =>
      s2.fs = s.fs ∨ (s.fs.get (pathJoin s.cwd file) ≠ some Node.dir ∧
        ∃ left, s2.fs = s.fs.set (pathJoin s.cwd file) (Node.file left))
    | Stmt.writePackageJson file =>
      s2.fs = s.fs ∨ (s.fs.get (pathJoin s.cwd file) ≠ some Node.dir ∧
        ∃ left, s2.fs = s.fs.set (pathJoin s.cwd file) (Node.file left))
    | _ => s2.fs = s.fs := by
  cases st <;> simp only [Stmt.run, Stmt.effect] at h <;> (repeat' split at h) <;>
    cases h <;>
    first
      | exact Or.inl rfl
      | exact writeFile_false env _ _ _ _ (by assumption)
      | simp [*]

theorem body_length (n : String) (r : Path) : (body n r).length = 25 := rfl

set_option maxRecDepth 4000 in
/-- A `mkdirSync(dir, { recursive: true })` of the loop that throws leaves the file
system as it found it: from the second directory on, `src` is already there. -/
theorem loop_mkdir_atomic (env : Env) (n : String) (r : Path) (s s1 s2 : State)
    (l1 l2 : List Stmt) (dir : String)
    (hsplit : body n r = l1 ++ Stmt.mkdirRecursive dir :: l2)
    (hn : runStmts env l1 s = StepResult.next s1)
    (ht : (Stmt.mkdirRecursive dir).run env s1 = StepResult.throw s2) : s2.fs = s1.fs := by
  have hm : mkdirP env s1.cwd (segments dir) s1.fs = (false, s2.fs) := by
    simp only [Stmt.run, Stmt.effect] at ht
    split at ht
    · cases ht
    · rename_i fs hm; cases ht; exact hm
  have hlen : l1.length < 25 := by
    have := congrArg List.length hsplit
    rw [body_length] at this
    simp at this
    omega
  have hl1 : l1 = (body n r).take l1.length := by rw [hsplit]; simp
  have hst : (body n r)[l1.length]? = some (Stmt.mkdirRecursive dir) := by
    rw [hsplit, List.getElem?_append_right (le_refl _)]; simp
  generalize l1.length = k at hlen hl1 hst
  interval_cases k <;>
    simp [body, setupStmts, commandStmts, patchStmts, directoryStmts, directories,
      templateStmts] at hst
  all_goals subst hst
  · exact mkdirP_one_atomic env _ _ _ _ (by simpa [segments, splitOnChar] using hm)
  all_goals
    simp [body, setupStmts, commandStmts, patchStmts, directoryStmts, directories,
      templateStmts] at hl1
    subst hl1
    have hsrc := src_dir_in_loop env (setupStmts r ++ commandStmts ++ patchStmts) _ s s1
      (by simp [Stmt.isTail]) hn
    exact mkdirP_two_atomic env _ _ _ _ _ hsrc (by simpa [segments, splitOnChar] using hm)

/-! ### The run in which an installation fails -/

theorem run_body_install_fails (env : Env) (n : String) (s : State) (r : Path)
    (fs1 fsEnd : FS)
    (hnul : nameHasNul r = false)
    (hfree : s.fs.get r = none)
    (hparent : s.fs.get (parentDir r) = some Node.dir)
    (hperm : env.denied r = false)
    (h1 : env.exec npmInit r (s.fs.set r Node.dir) = (true, fs1))
    (h2 : env.exec npmInstall r fs1 = (false, fsEnd)) :
    runStmts env (body n r) s = StepResult.throw
      (State.mk fsEnd r s.packageJson (s.log ++ setupStmts r ++ commandStmts.take 2)) := by
  simp only [parentDir] at hparent
  simp [body, setupStmts, commandStmts, runStmts, Stmt.run, Stmt.effect, mkdirPlain, hnul,
    hfree,
    hparent, hperm, h1, h2, FS.get_set, parentDir]

theorem run_body_install_dev_fails (env : Env) (n : String) (s : State) (r : Path)
    (fs1 fs2 fsEnd : FS)
    (hnul : nameHasNul r = false)
    (hfree : s.fs.get r = none)
    (hparent : s.fs.get (parentDir r) = some Node.dir)
    (hperm : env.denied r = false)
    (h1 : env.exec npmInit r (s.fs.set r Node.dir) = (true, fs1))
    (h2 : env.exec npmInstall r fs1 = (true, fs2))
    (h3 : env.exec npmInstallDev r fs2 = (false, fsEnd)) :
    runStmts env (body n r) s = StepResult.throw
      (State.mk fsEnd r s.packageJson (s.log ++ setupStmts r ++ commandStmts)) := by
  simp only [parentDir] at hparent
  simp [body, setupStmts, commandStmts, runStmts, Stmt.run, Stmt.effect, mkdirPlain, hnul,
    hfree,
    hparent, hperm, h1, h2, h3, FS.get_set, parentDir]

theorem patch_and_later_not_before (n : String) (r : Path) :
    ∀ st ∈ patchStmts ++ directoryStmts ++ templateStmts n,
      st ∉ setupStmts r ++ commandStmts := by
  intro st hst hmem
  simp only [setupStmts, commandStmts, List.mem_append, List.mem_cons, List.mem_singleton,
    List.not_mem_nil, or_false] at hmem
  rcases hmem with (h | h) | (h | h | h) <;> subst h <;>
    simp [patchStmts, directoryStmts, directories, templateStmts] at hst

/-! ### Parent directories at the time of a write -/

theorem runStmts_cons_next (env : Env) (st : Stmt) (rest : List Stmt) (s s1 : State)
    (h : runStmts env (st :: rest) s = StepResult.next s1) :
    ∃ sm, st.run env s = StepResult.next sm ∧ runStmts env rest sm = StepResult.next s1 := by
  simp only [runStmts] at h
  cases hr : st.run env s with
  | next sm => rw [hr] at h; exact ⟨sm, rfl, h⟩
  | throw sm => rw [hr] at h; cases h

theorem runStmts_append_next (env : Env) (l1 l2 : List Stmt) (s s1 : State)
    (h : runStmts env (l1 ++ l2) s = StepResult.next s1) :
    ∃ sm, runStmts env l1 s = StepResult.next sm ∧ runStmts env l2 sm = StepResult.next s1 := by
  rw [runStmts_append] at h
  cases hr : runStmts env l1 s with
  | next sm => rw [hr] at h; exact ⟨sm, rfl, h⟩
  | throw sm => rw [hr] at h; cases h

theorem parentDir_packageJson (c : Path) : parentDir (pathJoin c "package.json") = c := by
  rw [pathJoin_packageJson, parentDir_concat]

theorem Stmt.run_read_next (env : Env) (file : String) (s s1 : State)
    (h : (Stmt.readPackageJson file).run env s = StepResult.next s1) :
    s1.fs = s.fs ∧ s1.cwd = s.cwd ∧
      s.fs.get (parentDir (pathJoin s.cwd file)) = some Node.dir := by
  simp only [Stmt.run, Stmt.effect] at h
  split at h
  · cases h
  · rename_i text hread
    split at h
    · cases h
    · cases h
      refine ⟨rfl, rfl, ?_⟩
      unfold readFile at hread
      split at hread
      · cases hread
      · rename_i hd; simpa using hd

theorem Stmt.run_assign_next (env : Env) (key : String) (value : Json) (s s1 : State)
    (h : (Stmt.assign key value).run env s = StepResult.next s1) :
    s1.fs = s.fs ∧ s1.cwd = s.cwd := by
  simp only [Stmt.run, Stmt.effect] at h
  split at h
  · cases h
  · split at h
    · cases h
    · cases h; exact ⟨rfl, rfl⟩

theorem Stmt.run_writePackageJson_next (env : Env) (file : String) (s s1 : State)
    (h : (Stmt.writePackageJson file).run env s = StepResult.next s1) :
    s1.cwd = s.cwd ∧ ∃ doc, s.packageJson = some doc ∧
      writeFile env (pathJoin s.cwd file) (env.jsonStringify doc) s.fs = (true, s1.fs) := by
  simp only [Stmt.run, Stmt.effect] at h
  split at h
  · cases h
  · rename_i doc hdoc
    split at h
    · rename_i fs hw
      cases h
      exact ⟨rfl, doc, hdoc, hw⟩
    · cases h

theorem read_assign_keeps_parent (env : Env) (s s1 : State)
    (h : runStmts env (patchStmts.take 3) s = StepResult.next s1) :
    s1.cwd = s.cwd ∧ s1.fs = s.fs ∧
      s1.fs.get (parentDir (pathJoin s1.cwd "package.json")) = some Node.dir := by
  have hp : patchStmts.take 3 = [Stmt.readPackageJson "package.json",
    Stmt.assign "scripts" scriptsValue, Stmt.assign "type" (Json.str "module")] := rfl
  rw [hp] at h
  obtain ⟨sa, ha, h⟩ := runStmts_cons_next env _ _ _ _ h
  obtain ⟨sb, hb, h⟩ := runStmts_cons_next env _ _ _ _ h
  obtain ⟨sc, hc, h⟩ := runStmts_cons_next env _ _ _ _ h
  simp only [runStmts, StepResult.next.injEq] at h
  subst h
  obtain ⟨a1, a2, a3⟩ := Stmt.run_read_next env _ _ _ ha
  obtain ⟨b1, b2⟩ := Stmt.run_assign_next env _ _ _ _ hb
  obtain ⟨c1, c2⟩ := Stmt.run_assign_next env _ _ _ _ hc
  refine ⟨by rw [c2, b2, a2], by rw [c1, b1, a1], ?_⟩
  rw [c1, b1, a1, c2, b2, a2]; exact a3

theorem patch_leaves_root (env : Env) (s s1 : State)
    (h : runStmts env patchStmts s = StepResult.next s1) :
    s1.cwd = s.cwd ∧ s1.fs.get s1.cwd = some Node.dir := by
  have hp : patchStmts = patchStmts.take 3 ++ [Stmt.writePackageJson "package.json"] := rfl
  rw [hp] at h
  obtain ⟨sm, hm, hw⟩ := runStmts_append_next env _ _ s s1 h
  obtain ⟨m1, -, -⟩ := read_assign_keeps_parent env s sm hm
  obtain ⟨sw, hrun, hnil⟩ := runStmts_cons_next env _ _ _ _ hw
  simp only [runStmts, StepResult.next.injEq] at hnil
  subst hnil
  obtain ⟨w1, doc, -, hwf⟩ := Stmt.run_writePackageJson_next env _ _ _ hrun
  obtain ⟨hpar, -, hset⟩ := writeFile_true env _ _ _ _ hwf
  rw [parentDir_packageJson] at hpar
  refine ⟨by rw [w1, m1], ?_⟩
  rw [hset, w1, pathJoin_packageJson]
  simp [FS.get_set, hpar]

/-! ### Populated files below a directory -/

theorem FS.get_some_mem (fs : FS) (p : Path) (v : Node) (h : fs.get p = some v) :
    (p, v) ∈ fs.entries := by
  unfold FS.get at h
  split at h
  · rename_i e he
    have hm := List.mem_of_find?_eq_some he
    have hp := List.find?_some he
    simp only [decide_eq_true_eq] at hp
    cases h
    cases e
    simp only at hp
    subst hp
    exact hm
  · cases h

theorem mem_populatedFilesUnder (fs : FS) (dir p : Path) :
    p ∈ populatedFilesUnder fs dir ↔ dir <+: p ∧ dir ≠ p ∧ populated fs p = true := by
  unfold populatedFilesUnder
  constructor
  · intro h
    obtain ⟨e, he, rfl⟩ := List.mem_map.mp h
    have := (List.mem_filter.mp he).2
    simp only [Bool.and_eq_true, decide_eq_true_eq] at this
    exact ⟨this.1.1, this.1.2, this.2⟩
  · rintro ⟨h1, h2, h3⟩
    have hp := h3
    unfold populated at hp
    split at hp
    · rename_i content hg
      refine List.mem_map.mpr ⟨(p, Node.file content), List.mem_filter.mpr
        ⟨FS.get_some_mem fs p _ hg, ?_⟩, rfl⟩
      simp [h1, h2, h3]
    · cases hp

theorem populated_file (fs : FS) (p : Path) (content : String)
    (h : fs.get p = some (Node.file content)) (hc : content ≠ "") : populated fs p = true := by
  simp [populated, h, hc]

theorem not_populated_dir (fs : FS) (p : Path) (h : fs.get p = some Node.dir) :
    populated fs p = false := by
  simp [populated, h]

theorem not_populated_none (fs : FS) (p : Path) (h : fs.get p = none) :
    populated fs p = false := by
  simp [populated, h]

/-! ### A written file stays as it is while other files are written -/

theorem Stmt.run_state_cwd (env : Env) (st : Stmt) (s : State) (h : ∀ p, st ≠ Stmt.chdir p) :
    (st.run env s).state.cwd = s.cwd := by
  cases st with
  | chdir p => exact absurd rfl (h p)
  | mkdirSync p => simp only [Stmt.run, Stmt.effect]; split <;> rfl
  | execSync c => simp only [Stmt.run, Stmt.effect]; split <;> rfl
  | readPackageJson f => simp only [Stmt.run, Stmt.effect]; split <;> (try split) <;> rfl
  | assign k v => simp only [Stmt.run, Stmt.effect]; split <;> (try split) <;> rfl
  | writePackageJson f => simp only [Stmt.run, Stmt.effect]; split <;> (try split) <;> rfl
  | mkdirRecursive d => simp only [Stmt.run, Stmt.effect]; split <;> rfl
  | writeFileSync f c => simp only [Stmt.run, Stmt.effect]; split <;> rfl

theorem runStmts_state_cwd (env : Env) (l : List Stmt) (s : State)
    (h : ∀ st ∈ l, ∀ p, st ≠ Stmt.chdir p) : (runStmts env l s).state.cwd = s.cwd := by
  induction l generalizing s with
  | nil => rfl
  | cons st rest ih =>
    have hst := Stmt.run_state_cwd env st s (h st (by simp))
    simp only [runStmts]
    cases hr : st.run env s with
    | next s1 =>
      rw [hr] at hst
      simp only [StepResult.state] at hst
      rw [ih s1 (fun x hx => h x (by simp [hx])), hst]
    | throw s1 =>
      rw [hr] at hst
      exact hst

theorem setup_sets_cwd (env : Env) (r : Path) (s s1 : State)
    (h : runStmts env (setupStmts r) s = StepResult.next s1) : s1.cwd = r := by
  obtain ⟨sa, -, h⟩ := runStmts_cons_next env _ _ _ _ h
  obtain ⟨sb, hb, h⟩ := runStmts_cons_next env _ _ _ _ h
  simp only [runStmts, StepResult.next.injEq] at h
  subst h
  simp only [Stmt.run, Stmt.effect] at hb
  split at hb
  · cases hb; rfl
  · cases hb

theorem Stmt.run_write_get_other (env : Env) (file content : String) (s : State) (q : Path)
    (hq : q ≠ pathJoin s.cwd file) :
    ((Stmt.writeFileSync file content).run env s).state.fs.get q = s.fs.get q := by
  have hw := writeFile_get_other env (pathJoin s.cwd file) q content s.fs hq
  simp only [Stmt.run, Stmt.effect]
  split <;> rename_i fs hfs <;> simpa [hfs, StepResult.state] using hw

theorem runStmts_writes_get_other (env : Env) (l : List Stmt) (s : State) (q : Path)
    (h : ∀ st ∈ l, ∃ file content, st = Stmt.writeFileSync file content ∧
      q ≠ pathJoin s.cwd file) :
    (runStmts env l s).state.fs.get q = s.fs.get q := by
  induction l generalizing s with
  | nil => rfl
  | cons st rest ih =>
    obtain ⟨file, content, rfl, hq⟩ := h _ (List.mem_cons_self _ _)
    have hget := Stmt.run_write_get_other env file content s q hq
    have hcwd := Stmt.run_state_cwd env (Stmt.writeFileSync file content) s
      (fun p hp => by cases hp)
    simp only [runStmts]
    cases hr : (Stmt.writeFileSync file content).run env s with
    | next s1 =>
      rw [hr] at hget hcwd
      simp only [StepResult.state] at hget hcwd
      rw [ih s1 (fun x hx => by rw [hcwd]; exact h x (by simp [hx])), hget]
    | throw s1 =>
      rw [hr] at hget
      exact hget

theorem generateProject_state (env : Env) (n : String) (s : State)
    (h : existsSyncJoin s.fs s.cwd n = false) :
    (generateProject env n s).2 = (runStmts env (body n (pathJoin s.cwd n)) s).state := by
  simp only [generateProject, h]
  cases runStmts env (body n (pathJoin s.cwd n)) s <;> rfl

/-- In a run that has started the write of `.gitignore`, the write of `.env` is
complete and nothing later touches that file. -/
theorem env_file_kept (env : Env) (n : String) (fs : FS) (cwd : Path)
    (h : Stmt.writeFileSync ".gitignore" gitignoreContent ∈
      (cli env n (State.initial fs cwd)).2.log) :
    (cli env n (State.initial fs cwd)).2.fs.get (pathJoin cwd n ++ [".env"]) =
      some (Node.file (envContent n)) := by
  rw [cli_state] at h ⊢
  by_cases hex : existsSyncJoin fs cwd n = true
  · have : generateProject env n (State.initial fs cwd) =
        (Outcome.exited 1, State.initial fs cwd) := by
      simp [generateProject, State.initial, hex]
    rw [this] at h
    simp [State.initial] at h
  · have hex2 : existsSyncJoin (State.initial fs cwd).fs (State.initial fs cwd).cwd n = false := by
      simpa [State.initial] using hex
    rw [generateProject_state env n _ hex2] at h ⊢
    have hcwd0 : (State.initial fs cwd).cwd = cwd := rfl
    rw [hcwd0] at h ⊢
    generalize pathJoin cwd n = r at h ⊢
    obtain ⟨later, hlater⟩ : ∃ later, later = (templateStmts n).tail := ⟨_, rfl⟩
    have hbody : body n r = (setupStmts r ++ (commandStmts ++ patchStmts ++ directoryStmts)) ++
        (Stmt.writeFileSync ".env" (envContent n) :: later) := by rw [hlater]; rfl
    rw [hbody, runStmts_append] at h ⊢
    cases hA : runStmts env (setupStmts r ++ (commandStmts ++ patchStmts ++ directoryStmts))
        (State.initial fs cwd) with
    | throw sa =>
      exfalso
      rw [hA] at h
      obtain ⟨l1, hp, hl⟩ := runStmts_log_initial env
        (setupStmts r ++ (commandStmts ++ patchStmts ++ directoryStmts)) (State.initial fs cwd)
      rw [hA] at hl
      simp only [StepResult.state, State.initial, List.nil_append] at hl h
      rw [hl] at h
      have := hp.subset h
      simp [setupStmts, commandStmts, patchStmts, directoryStmts, directories] at this
    | next sa =>
      rw [hA] at h
      simp only at h ⊢
      have hlogA := runStmts_next_log env _ _ sa hA
      obtain ⟨ss, hs, hrest⟩ := runStmts_append_next env _ _ _ sa hA
      have hcs := setup_sets_cwd env r _ ss hs
      have hca : sa.cwd = r := by
        have := runStmts_state_cwd env (commandStmts ++ patchStmts ++ directoryStmts) ss
          (by
            intro st hst p hp
            subst hp
            simp [commandStmts, patchStmts, directoryStmts, directories] at hst)
        rw [hrest] at this
        simp only [StepResult.state] at this
        rw [this, hcs]
      simp only [runStmts] at h ⊢
      cases hW : (Stmt.writeFileSync ".env" (envContent n)).run env sa with
      | throw sw =>
        exfalso
        rw [hW] at h
        have hlw := Stmt.run_log env (Stmt.writeFileSync ".env" (envContent n)) sa
        rw [hW] at hlw
        simp only [StepResult.state] at hlw h
        rw [hlw, hlogA] at h
        simp [State.initial, setupStmts, commandStmts, patchStmts, directoryStmts,
          directories] at h
      | next sw =>
        simp only
        have hcw : sw.cwd = r := by
          have := Stmt.run_state_cwd env (Stmt.writeFileSync ".env" (envContent n)) sa
            (fun p hp => by cases hp)
          rw [hW] at this
          simp only [StepResult.state] at this
          rw [this, hca]
        have hfile : sw.fs.get (r ++ [".env"]) = some (Node.file (envContent n)) := by
          simp only [Stmt.run, Stmt.effect] at hW
          split at hW
          · rename_i fsw hwf
            cases hW
            obtain ⟨-, -, hset⟩ := writeFile_true env _ _ _ _ hwf
            simp only at hset ⊢
            rw [hset, hca]
            simp [FS.get_set, pathJoin, segments, splitOnChar, applySegment]
          · cases hW
        rw [runStmts_writes_get_other env _ sw (r ++ [".env"]) ?_, hfile]
        intro st hst
        rw [hlater] at hst
        simp only [templateStmts, List.tail, List.mem_cons, List.mem_singleton,
          List.not_mem_nil, or_false] at hst
        rcases hst with h1 | h1 | h1 | h1 | h1 | h1 | h1 | h1 <;>
          refine ⟨_, _, h1, ?_⟩ <;>
          simp [hcw, pathJoin, segments, splitOnChar, applySegment]

/-! ## The claims of the specification -/

/-- C1: whatever the project name and the file system, if the path `join(cwd, name)`
exists (`fs.existsSync` finds it: the node is there, and is a directory when the joined
path ends in a separator) then `generateProject` ends the process with status 1 and leaves
the process state as it was: the file system is untouched (no directory made, no file
written), the working directory is the same, and no statement, so no external command, has
been started. -/
theorem collision_exits_without_effect (env : Env) (n : String) (s : State)
    (h : existsSyncJoin s.fs s.cwd n = true) :
    generateProject env n s = (Outcome.exited 1, s) ∧ cli env n s = (1, s) := by
  have hg : generateProject env n s = (Outcome.exited 1, s) := by
    simp [generateProject, h]
  exact ⟨hg, by simp [cli, hg]⟩

/-- C1 at a concrete input: `/home/dev/shop-api` exists, the name is `shop-api`. -/
theorem collision_exits_without_effect_witness :
    cli demoEnv "shop-api"
        (State.initial ⟨[(["home", "dev"], Node.dir), (["home", "dev", "shop-api"], Node.dir)]⟩
          ["home", "dev"]) =
      (1, State.initial ⟨[(["home", "dev"], Node.dir), (["home", "dev", "shop-api"], Node.dir)]⟩
          ["home", "dev"]) :=
  (collision_exits_without_effect demoEnv "shop-api"
    (State.initial ⟨[(["home", "dev"], Node.dir), (["home", "dev", "shop-api"], Node.dir)]⟩
      ["home", "dev"]) (by decide)).2

/-- C2: for a valid name whose target path is free, when the three commands succeed (they
leave the project directory in place with a manifest that is a JSON object, and none of the
catalog's paths occupied) and no path below the project is refused, the run ends with status
0; the seven directories exist; each of the nine catalog files holds its template text, which
is not empty; the generator has run exactly the statements of `body`, whose file writes go to
`package.json` and the nine catalog files; every other path is as the commands left it. -/
theorem generate_creates_catalog (env : Env) (n : String) (s : State)
    (fs1 fs2 fs3 : FS) (text : String) (members : List (String × Json))
    (hname : ValidName n)
    (hcwd : s.fs.get s.cwd = some Node.dir)
    (hfree : existsSync s.fs (pathJoin s.cwd n) = false)
    (hperm : ∀ p, env.denied (pathJoin s.cwd n ++ p) = false)
    (h1 : env.exec npmInit (pathJoin s.cwd n) (s.fs.set (pathJoin s.cwd n) Node.dir) = (true, fs1))
    (h2 : env.exec npmInstall (pathJoin s.cwd n) fs1 = (true, fs2))
    (h3 : env.exec npmInstallDev (pathJoin s.cwd n) fs2 = (true, fs3))
    (hroot : fs3.get (pathJoin s.cwd n) = some Node.dir)
    (hmanifest : fs3.get (pathJoin s.cwd n ++ ["package.json"]) = some (Node.file text))
    (hparse : env.jsonParse text = some (Json.obj members))
    (hclear : ∀ p ∈ catalogPaths, fs3.get (pathJoin s.cwd n ++ p) = none) :
    ∃ s1, cli env n s = (0, s1) ∧
      (∀ d ∈ ["src", "src/config", "src/controllers", "src/middleware", "src/models",
          "src/routes", "src/utils"],
        s1.fs.get (pathJoin s.cwd n ++ segments d) = some Node.dir) ∧
      (templateWrites (templateStmts n)).map (fun e => e.1) =
        [".env", ".gitignore", "src/server.js", "src/config/db.js", "src/models/User.js",
          "src/controllers/userController.js", "src/routes/userRoutes.js",
          "src/middleware/authMiddleware.js", "src/utils/generateToken.js"] ∧
      (∀ e ∈ templateWrites (templateStmts n),
        s1.fs.get (pathJoin s.cwd n ++ segments e.1) = some (Node.file e.2) ∧ e.2 ≠ "") ∧
      s1.log = s.log ++ body n (pathJoin s.cwd n) ∧
      writtenFiles (body n (pathJoin s.cwd n)) =
        "package.json" :: (templateWrites (templateStmts n)).map (fun e => e.1) ∧
      (∀ q, q ≠ pathJoin s.cwd n ++ ["package.json"] →
        (∀ p ∈ catalogPaths, q ≠ pathJoin s.cwd n ++ p) → s1.fs.get q = fs3.get q) := by
  have hpar : s.fs.get (parentDir (pathJoin s.cwd n)) = some Node.dir := by
    rw [pathJoin_validName _ _ hname, parentDir_concat]; exact hcwd
  obtain ⟨s1, hrun, -, hdirs, hfiles, -, hframe⟩ :=
    run_body_success env n s (pathJoin s.cwd n) fs1 fs2 fs3 text members
      (nameHasNul_validName _ n hname) (get_of_not_exists _ _ hfree) hpar hperm h1 h2 h3
      hroot hmanifest hparse hclear
  have hfreeJoin : existsSyncJoin s.fs s.cwd n = false :=
    existsSyncJoin_free _ _ n hname hfree
  refine ⟨s1, cli_of_run_next env n s s1 hfreeJoin hrun, hdirs, rfl, ?_,
    runStmts_next_log env _ s s1 hrun, rfl, hframe⟩
  intro e he
  exact ⟨hfiles e he, templates_populated n e he⟩

/-- C2 at a concrete input: the name `shop-api` in `demoEnv`, started in the empty
directory `/home/dev`. -/
theorem generate_creates_catalog_witness :
    (cli demoEnv "shop-api" demoState).1 = 0 ∧
      (cli demoEnv "shop-api" demoState).2.fs.get ["home", "dev", "shop-api", "src", "utils"] =
        some Node.dir := by
  obtain ⟨s1, h, hd, -⟩ := generate_creates_catalog demoEnv "shop-api" demoState
    (demoEnv.exec npmInit ["home", "dev", "shop-api"]
      (demoState.fs.set ["home", "dev", "shop-api"] Node.dir)).2
    (demoEnv.exec npmInstall ["home", "dev", "shop-api"]
      (demoEnv.exec npmInit ["home", "dev", "shop-api"]
        (demoState.fs.set ["home", "dev", "shop-api"] Node.dir)).2).2
    (demoEnv.exec npmInstallDev ["home", "dev", "shop-api"]
      (demoEnv.exec npmInstall ["home", "dev", "shop-api"]
        (demoEnv.exec npmInit ["home", "dev", "shop-api"]
          (demoState.fs.set ["home", "dev", "shop-api"] Node.dir)).2).2).2
    demoManifestText
    [("name", Json.str "shop-api"), ("version", Json.str "1.0.0"),
      ("scripts", Json.obj [("test", Json.str "exit 1")])]
    (by decide) (by decide) (by decide) (fun _ => rfl) rfl rfl rfl
    (by decide) (by decide) rfl (by decide)
  rw [h]
  exact ⟨rfl, hd "src/utils" (by simp)⟩

/-- C3: for a valid project name `n`, the text `envContent n` has exactly the lines
`PORT=3000`, `MONGODB_URI=mongodb://localhost:27017/` followed by `n`,
`JWT_SECRET=votre_secret_jwt` and `NODE_ENV=development`, and the part of the URI after its
last `/` is `n` itself, character for character.  That text is what `generateProject`
writes to `.env`: in a run in which every step succeeds (the hypotheses spell out commands
that succeed and a file system that works) the process ends with status 0 and the file
`.env` of the project holds exactly `envContent n`; in every run whatever, once the
statement after the write of `.env` has been started, the file `.env` holds exactly
`envContent n` at the end, however the run ends; and a write to `.env` that a run has
started has that content. -/
theorem env_content_exact (n : String) (h : ValidName n) :
    textLines (envContent n) =
      ["PORT=3000", "MONGODB_URI=mongodb://localhost:27017/" ++ n,
        "JWT_SECRET=votre_secret_jwt", "NODE_ENV=development"] ∧
    lastPathSegment ("mongodb://localhost:27017/" ++ n) = some n ∧
    (∀ (env : Env) (s : State) (fs1 fs2 fs3 : FS) (text : String)
        (members : List (String × Json)),
      s.fs.get s.cwd = some Node.dir →
      existsSync s.fs (pathJoin s.cwd n) = false →
      (∀ p, env.denied (pathJoin s.cwd n ++ p) = false) →
      env.exec npmInit (pathJoin s.cwd n) (s.fs.set (pathJoin s.cwd n) Node.dir) = (true, fs1) →
      env.exec npmInstall (pathJoin s.cwd n) fs1 = (true, fs2) →
      env.exec npmInstallDev (pathJoin s.cwd n) fs2 = (true, fs3) →
      fs3.get (pathJoin s.cwd n) = some Node.dir →
      fs3.get (pathJoin s.cwd n ++ ["package.json"]) = some (Node.file text) →
      env.jsonParse text = some (Json.obj members) →
      (∀ p ∈ catalogPaths, fs3.get (pathJoin s.cwd n ++ p) = none) →
      ∃ s1, cli env n s = (0, s1) ∧
        s1.fs.get (pathJoin s.cwd n ++ [".env"]) = some (Node.file (envContent n)) ∧
        Stmt.writeFileSync ".env" (envContent n) ∈ s1.log) ∧
    (∀ (env : Env) (fs : FS) (cwd : Path),
      Stmt.writeFileSync ".gitignore" gitignoreContent ∈
        (cli env n (State.initial fs cwd)).2.log →
      (cli env n (State.initial fs cwd)).2.fs.get (pathJoin cwd n ++ [".env"]) =
        some (Node.file (envContent n))) ∧
    (∀ (env : Env) (fs : FS) (cwd : Path) (content : String),
      Stmt.writeFileSync ".env" content ∈ (cli env n (State.initial fs cwd)).2.log →
      content = envContent n) := by
  have hvalid := h
  obtain ⟨-, -, -, h4⟩ := h
  have hslash : '/' ∉ n.data := fun hm => (h4 _ hm).1 rfl
  have hnl : '\n' ∉ n.data := fun hm => (h4 _ hm).2.1 rfl
  refine ⟨?_, ?_, ?_, fun env fs cwd hmem => env_file_kept env n fs cwd hmem, ?_⟩
  · have h1 : (envContent n).data =
        "PORT=3000".data ++ '\n' :: (("MONGODB_URI=mongodb://localhost:27017/".data ++ n.data) ++
          '\n' :: ("JWT_SECRET=votre_secret_jwt".data ++ '\n' :: "NODE_ENV=development".data)) := by
      simp [envContent, String.data_append_eq]
    have hA : '\n' ∉ "PORT=3000".data := by decide
    have hB : '\n' ∉ "MONGODB_URI=mongodb://localhost:27017/".data ++ n.data := by
      intro hm
      rcases List.mem_append.mp hm with hm | hm
      · revert hm; decide
      · exact hnl hm
    have hC : '\n' ∉ "JWT_SECRET=votre_secret_jwt".data := by decide
    have hD : '\n' ∉ "NODE_ENV=development".data := by decide
    unfold textLines
    rw [h1, splitOnChar_append_sep _ _ _ hA, splitOnChar_append_sep _ _ _ hB,
      splitOnChar_append_sep _ _ _ hC, splitOnChar_of_not_mem _ _ hD]
    rfl
  · have h1 : ("mongodb://localhost:27017/" ++ n).data =
        "mongodb://localhost:27017".data ++ '/' :: n.data := by
      simp [String.data_append_eq]
    unfold lastPathSegment segments
    rw [h1, List.getLast?_map, splitOnChar_append_last _ _ _ hslash]
    rfl
  · intro env s fs1 fs2 fs3 text members hcwd hfree hperm e1 e2 e3 hroot hmanifest hparse hclear
    have hpar : s.fs.get (parentDir (pathJoin s.cwd n)) = some Node.dir := by
      rw [pathJoin_validName _ _ hvalid, parentDir_concat]; exact hcwd
    obtain ⟨s1, hrun, -, -, hfiles, -, -⟩ :=
      run_body_success env n s (pathJoin s.cwd n) fs1 fs2 fs3 text members
        (nameHasNul_validName _ n hvalid) (get_of_not_exists _ _ hfree) hpar hperm e1 e2 e3
        hroot hmanifest hparse hclear
    have hfreeJoin : existsSyncJoin s.fs s.cwd n = false :=
      existsSyncJoin_free _ _ n hvalid hfree
    refine ⟨s1, cli_of_run_next env n s s1 hfreeJoin hrun, ?_, ?_⟩
    · have := hfiles (".env", envContent n) (by simp [templateStmts, templateWrites])
      simpa [segments, splitOnChar] using this
    · rw [runStmts_next_log env _ s s1 hrun]
      simp [body, templateStmts]
  · intro env fs cwd content hmem
    have e1 := mem_body_write n _ ".env" content (cli_log_mem_body env n fs cwd _ hmem)
    have e2 : templateContent n ".env" = some (envContent n) := by
      simp [templateContent, templateWrites, templateStmts]
    rw [e2] at e1
    exact (Option.some.inj e1).symm

/-- C3 at a concrete input: the run for the name `shop-api` in `demoEnv` leaves `.env`
with the text for that name, whose lines are as stated. -/
theorem env_content_exact_witness :
    textLines (envContent "shop-api") =
      ["PORT=3000", "MONGODB_URI=mongodb://localhost:27017/" ++ "shop-api",
        "JWT_SECRET=votre_secret_jwt", "NODE_ENV=development"] ∧
    (cli demoEnv "shop-api" demoState).2.fs.get ["home", "dev", "shop-api", ".env"] =
      some (Node.file (envContent "shop-api")) := by
  obtain ⟨hlines, -, hrun, -, -⟩ := env_content_exact "shop-api" (by decide)
  obtain ⟨s1, h, hfile, -⟩ := hrun demoEnv demoState
    (demoEnv.exec npmInit ["home", "dev", "shop-api"]
      (demoState.fs.set ["home", "dev", "shop-api"] Node.dir)).2
    (demoEnv.exec npmInstall ["home", "dev", "shop-api"]
      (demoEnv.exec npmInit ["home", "dev", "shop-api"]
        (demoState.fs.set ["home", "dev", "shop-api"] Node.dir)).2).2
    (demoEnv.exec npmInstallDev ["home", "dev", "shop-api"]
      (demoEnv.exec npmInstall ["home", "dev", "shop-api"]
        (demoEnv.exec npmInit ["home", "dev", "shop-api"]
          (demoState.fs.set ["home", "dev", "shop-api"] Node.dir)).2).2).2
    demoManifestText
    [("name", Json.str "shop-api"), ("version", Json.str "1.0.0"),
      ("scripts", Json.obj [("test", Json.str "exit 1")])]
    (by decide) (by decide) (fun _ => rfl) rfl rfl rfl (by decide) (by decide) rfl (by decide)
  refine ⟨hlines, ?_⟩
  rw [h]
  exact hfile

/-- C4 (as the code has it): for a valid name whose target path is free, when the manifest
is initialised and then the installation of the runtime or of the development dependencies
fails, the process ends with status 1 inside the freshly created project directory with the
file system the failing command left.  The generator has started the creation of the root,
the change of directory and the commands up to the failing one, nothing else: no statement
of the manifest patch, none of the directory loop, no template write.  So the manifest has
no entry written by the generator, and the subdirectories, `.env` and `.gitignore` have
not been created by it either. -/
theorem install_failure_leaves_only_root (env : Env) (n : String) (s : State)
    (fs1 fsEnd : FS)
    (hname : ValidName n)
    (hcwd : s.fs.get s.cwd = some Node.dir)
    (hfree : existsSync s.fs (pathJoin s.cwd n) = false)
    (hperm : env.denied (pathJoin s.cwd n) = false)
    (h1 : env.exec npmInit (pathJoin s.cwd n) (s.fs.set (pathJoin s.cwd n) Node.dir) =
      (true, fs1))
    (hfail : env.exec npmInstall (pathJoin s.cwd n) fs1 = (false, fsEnd) ∨
      ∃ fs2, env.exec npmInstall (pathJoin s.cwd n) fs1 = (true, fs2) ∧
        env.exec npmInstallDev (pathJoin s.cwd n) fs2 = (false, fsEnd)) :
    ∃ s1, cli env n s = (1, s1) ∧ s1.fs = fsEnd ∧ s1.cwd = pathJoin s.cwd n ∧
      (s1.log = s.log ++ setupStmts (pathJoin s.cwd n) ++ commandStmts.take 2 ∨
        s1.log = s.log ++ setupStmts (pathJoin s.cwd n) ++ commandStmts) ∧
      (∀ st ∈ patchStmts ++ directoryStmts ++ templateStmts n,
        st ∉ setupStmts (pathJoin s.cwd n) ++ commandStmts) := by
  have hpar : s.fs.get (parentDir (pathJoin s.cwd n)) = some Node.dir := by
    rw [pathJoin_validName _ _ hname, parentDir_concat]; exact hcwd
  have hnone := get_of_not_exists _ _ hfree
  have hnul := nameHasNul_validName s.cwd n hname
  have hfreeJoin : existsSyncJoin s.fs s.cwd n = false :=
    existsSyncJoin_free _ _ n hname hfree
  rcases hfail with h2 | ⟨fs2, h2, h3⟩
  · exact ⟨_, cli_of_run_throw env n s _ hfreeJoin
        (run_body_install_fails env n s _ fs1 fsEnd hnul hnone hpar hperm h1 h2),
      rfl, rfl, Or.inl rfl, patch_and_later_not_before n _⟩
  · exact ⟨_, cli_of_run_throw env n s _ hfreeJoin
        (run_body_install_dev_fails env n s _ fs1 fs2 fsEnd hnul hnone hpar hperm h1 h2 h3),
      rfl, rfl, Or.inr rfl, patch_and_later_not_before n _⟩

/-- C4 (as the code has it) at a concrete input: the name `shop-api` in
`brokenInstallEnv`, where the runtime installation fails. -/
theorem install_failure_leaves_only_root_witness :
    (cli brokenInstallEnv "shop-api" demoState).1 = 1 := by
  obtain ⟨s1, h, -⟩ := install_failure_leaves_only_root brokenInstallEnv "shop-api" demoState
    (brokenInstallEnv.exec npmInit ["home", "dev", "shop-api"]
      (demoState.fs.set ["home", "dev", "shop-api"] Node.dir)).2
    (brokenInstallEnv.exec npmInstall ["home", "dev", "shop-api"]
      (brokenInstallEnv.exec npmInit ["home", "dev", "shop-api"]
        (demoState.fs.set ["home", "dev", "shop-api"] Node.dir)).2).2
    (by decide) (by decide) (by decide) rfl rfl (Or.inl rfl)
  rw [h]

/-- C4, counterexample to the claim as stated: the name `shop-api` is valid and its
target path free, the installation of the runtime dependencies fails, and in the state
left behind neither `src` nor any other subdirectory nor `.env` nor `.gitignore` exists:
the directory loop and the template writes come after the installation in
`generateProject`. -/
theorem install_failure_partial_state_counterexample :
    ValidName "shop-api" ∧
    existsSync demoState.fs (pathJoin demoState.cwd "shop-api") = false ∧
    (cli brokenInstallEnv "shop-api" demoState).1 = 1 ∧
    (cli brokenInstallEnv "shop-api" demoState).2.log.getLast? =
      some (Stmt.execSync npmInstall) ∧
    (∀ d ∈ directories, (cli brokenInstallEnv "shop-api" demoState).2.fs.get
      (["home", "dev", "shop-api"] ++ segments d) = none) ∧
    (cli brokenInstallEnv "shop-api" demoState).2.fs.get
      ["home", "dev", "shop-api", ".env"] = none ∧
    (cli brokenInstallEnv "shop-api" demoState).2.fs.get
      ["home", "dev", "shop-api", ".gitignore"] = none := by
  refine ⟨by decide, by decide, by decide, rfl, by decide, by decide, by decide⟩

/-- C5: when `package.json` holds a JSON object, whatever its members (a `scripts` member
included), the patch step runs to its end and the document it prints back into
`package.json` is an object whose member `scripts` is exactly the object with the two
entries `start = "node src/server.js"` and `dev = "nodemon src/server.js"`, whose member
`type` is `"module"`, and whose other members are those read. -/
theorem patch_sets_scripts_and_type (env : Env) (s : State) (text : String)
    (members : List (String × Json))
    (hdir : s.fs.get s.cwd = some Node.dir)
    (hfile : s.fs.get (s.cwd ++ ["package.json"]) = some (Node.file text))
    (hparse : env.jsonParse text = some (Json.obj members))
    (hperm : env.denied (s.cwd ++ ["package.json"]) = false) :
    ∃ s1 patched, runStmts env patchStmts s = StepResult.next s1 ∧
      s1.packageJson = some (Json.obj patched) ∧
      s1.fs.get (s.cwd ++ ["package.json"]) =
        some (Node.file (env.jsonStringify (Json.obj patched))) ∧
      lookupMember "scripts" patched =
        some (Json.obj [("start", Json.str "node src/server.js"),
          ("dev", Json.str "nodemon src/server.js")]) ∧
      lookupMember "type" patched = some (Json.str "module") ∧
      ∀ key, key ≠ "scripts" → key ≠ "type" →
        lookupMember key patched = lookupMember key members := by
  refine ⟨State.mk
      (s.fs.set (s.cwd ++ ["package.json"]) (Node.file (env.jsonStringify
        (Json.obj (assignMember "type" (Json.str "module")
          (assignMember "scripts" scriptsValue members))))))
      s.cwd
      (some (Json.obj (assignMember "type" (Json.str "module")
          (assignMember "scripts" scriptsValue members))))
      (s.log ++ [Stmt.readPackageJson "package.json"] ++
        [Stmt.assign "scripts" scriptsValue] ++ [Stmt.assign "type" (Json.str "module")] ++
        [Stmt.writePackageJson "package.json"]),
    assignMember "type" (Json.str "module") (assignMember "scripts" scriptsValue members),
    ?_, ?_, ?_, ?_, ?_, ?_⟩
  · simp [patchStmts, runStmts, Stmt.run, Stmt.effect, pathJoin_packageJson, readFile,
      parentDir_concat, hdir, hfile, hparse, setProperty, writeFile, hperm]
  · rfl
  · simp [FS.get_set]
  · rw [lookupMember_assign_other _ _ _ _ (by decide), lookupMember_assign_same]; rfl
  · rw [lookupMember_assign_same]
  · intro key h1 h2
    rw [lookupMember_assign_other _ _ _ _ h2, lookupMember_assign_other _ _ _ _ h1]

/-- C5 at a concrete input: the manifest of `demoEnv`, which has a default `test`
script. -/
theorem patch_sets_scripts_and_type_witness :
    ∃ s1 patched,
      runStmts demoEnv patchStmts
        (State.initial ⟨[(["app"], Node.dir),
          (["app", "package.json"], Node.file demoManifestText)]⟩ ["app"]) =
        StepResult.next s1 ∧
      s1.packageJson = some (Json.obj patched) ∧
      lookupMember "scripts" patched =
        some (Json.obj [("start", Json.str "node src/server.js"),
          ("dev", Json.str "nodemon src/server.js")]) ∧
      lookupMember "type" patched = some (Json.str "module") := by
  obtain ⟨s1, patched, h1, h2, -, h4, h5, -⟩ := patch_sets_scripts_and_type demoEnv
    (State.initial ⟨[(["app"], Node.dir),
      (["app", "package.json"], Node.file demoManifestText)]⟩ ["app"])
    demoManifestText
    [("name", Json.str "shop-api"), ("version", Json.str "1.0.0"),
      ("scripts", Json.obj [("test", Json.str "exit 1")])]
    (by decide) (by decide) rfl rfl
  exact ⟨s1, patched, h1, h2, h4, h5⟩

/-- C6 (as the code has it): for a valid name whose target path is free, a run in which
every step succeeds (the hypotheses spell out commands that succeed, leaving nothing below
`src`, and a file system that works) ends with status 0 and leaves exactly seven populated
files below the project directory `src`: `src/server.js`, `src/config/db.js`,
`src/models/User.js`, `src/controllers/userController.js`, `src/routes/userRoutes.js`,
`src/middleware/authMiddleware.js` and `src/utils/generateToken.js`.  The populated
template files are nine in all: these seven and `.env` and `.gitignore`, which lie in the
project root. -/
theorem generate_leaves_seven_under_src (env : Env) (n : String) (s : State)
    (fs1 fs2 fs3 : FS) (text : String) (members : List (String × Json))
    (hname : ValidName n)
    (hcwd : s.fs.get s.cwd = some Node.dir)
    (hfree : existsSync s.fs (pathJoin s.cwd n) = false)
    (hperm : ∀ p, env.denied (pathJoin s.cwd n ++ p) = false)
    (h1 : env.exec npmInit (pathJoin s.cwd n) (s.fs.set (pathJoin s.cwd n) Node.dir) = (true, fs1))
    (h2 : env.exec npmInstall (pathJoin s.cwd n) fs1 = (true, fs2))
    (h3 : env.exec npmInstallDev (pathJoin s.cwd n) fs2 = (true, fs3))
    (hroot : fs3.get (pathJoin s.cwd n) = some Node.dir)
    (hmanifest : fs3.get (pathJoin s.cwd n ++ ["package.json"]) = some (Node.file text))
    (hparse : env.jsonParse text = some (Json.obj members))
    (hclear : ∀ p ∈ catalogPaths, fs3.get (pathJoin s.cwd n ++ p) = none)
    (hsrc : ∀ p, pathJoin s.cwd n ++ ["src"] <+: p → fs3.get p = none) :
    ∃ s1, cli env n s = (0, s1) ∧
      (∀ p, p ∈ populatedFilesUnder s1.fs (pathJoin s.cwd n ++ ["src"]) ↔
        p ∈ ["src/server.js", "src/config/db.js", "src/models/User.js",
          "src/controllers/userController.js", "src/routes/userRoutes.js",
          "src/middleware/authMiddleware.js", "src/utils/generateToken.js"].map
            (fun f => pathJoin s.cwd n ++ segments f)) ∧
      ((templateWrites (templateStmts n)).map (fun e => e.1)).filter underSrc =
        ["src/server.js", "src/config/db.js", "src/models/User.js",
          "src/controllers/userController.js", "src/routes/userRoutes.js",
          "src/middleware/authMiddleware.js", "src/utils/generateToken.js"] ∧
      ((templateWrites (templateStmts n)).map (fun e => e.1)).filter (fun f => !underSrc f) =
        [".env", ".gitignore"] ∧
      (templateWrites (templateStmts n)).length = 9 ∧
      (∀ e ∈ templateWrites (templateStmts n),
        populated s1.fs (pathJoin s.cwd n ++ segments e.1) = true) := by
  have hpar : s.fs.get (parentDir (pathJoin s.cwd n)) = some Node.dir := by
    rw [pathJoin_validName _ _ hname, parentDir_concat]; exact hcwd
  obtain ⟨s1, hrun, -, hdirs, hfiles, hman, hframe⟩ :=
    run_body_success env n s (pathJoin s.cwd n) fs1 fs2 fs3 text members
      (nameHasNul_validName _ n hname) (get_of_not_exists _ _ hfree) hpar hperm h1 h2 h3
      hroot hmanifest hparse hclear
  have hfreeJoin : existsSyncJoin s.fs s.cwd n = false :=
    existsSyncJoin_free _ _ n hname hfree
  have hpop : ∀ e ∈ templateWrites (templateStmts n),
      populated s1.fs (pathJoin s.cwd n ++ segments e.1) = true :=
    fun e he => populated_file _ _ _ (hfiles e he) (templates_populated n e he)
  have hnames : (templateWrites (templateStmts n)).map (fun e => e.1) =
      [".env", ".gitignore", "src/server.js", "src/config/db.js", "src/models/User.js",
        "src/controllers/userController.js", "src/routes/userRoutes.js",
        "src/middleware/authMiddleware.js", "src/utils/generateToken.js"] := rfl
  refine ⟨s1, cli_of_run_next env n s s1 hfreeJoin hrun, ?_, by rw [hnames]; decide,
    by rw [hnames]; decide, rfl, hpop⟩
  generalize pathJoin s.cwd n = r at *
  have hd := hdirs
  simp [directories, segments, splitOnChar] at hd
  obtain ⟨d1, d2, d3, d4, d5, d6, d7⟩ := hd
  have hpp := hpop
  simp [templateStmts, templateWrites, segments, splitOnChar] at hpp
  obtain ⟨p1, p2, p3, p4, p5, p6, p7, p8, p9⟩ := hpp
  intro p
  rw [mem_populatedFilesUnder]
  constructor
  · rintro ⟨hpre, hne, hp⟩
    by_cases hin : p = r ++ ["package.json"] ∨ p ∈ catalogPaths.map (fun q => r ++ q)
    · simp [catalogPaths, directories, writtenFiles, templateStmts, segments,
        splitOnChar] at hin
      rcases hin with h | h | h | h | h | h | h | h | h | h | h | h | h | h | h | h | h <;>
        subst h <;>
        first
          | (exfalso; simp at hpre; done)
          | (exfalso; exact hne rfl)
          | (exfalso; simp [populated, d1, d2, d3, d4, d5, d6, d7] at hp; done)
          | simp [segments, splitOnChar]
    · have hq1 : p ≠ r ++ ["package.json"] := fun e => hin (Or.inl e)
      have hq2 : ∀ q ∈ catalogPaths, p ≠ r ++ q := fun q hq e =>
        hin (Or.inr (List.mem_map.mpr ⟨q, hq, e.symm⟩))
      have := hframe p hq1 hq2
      rw [not_populated_none _ _ (this.trans (hsrc p hpre))] at hp
      cases hp
  · intro hp
    simp [segments, splitOnChar] at hp
    rcases hp with h | h | h | h | h | h | h <;> subst h <;>
      simp [p1, p2, p3, p4, p5, p6, p7, p8, p9]

/-- C6 (as the code has it) at a concrete input: the name `shop-api` in `demoEnv`. -/
theorem generate_leaves_seven_under_src_witness :
    (cli demoEnv "shop-api" demoState).1 = 0 := by
  have hent : (demoEnv.exec npmInstallDev ["home", "dev", "shop-api"]
      (demoEnv.exec npmInstall ["home", "dev", "shop-api"]
        (demoEnv.exec npmInit ["home", "dev", "shop-api"]
          (demoState.fs.set ["home", "dev", "shop-api"] Node.dir)).2).2).2.entries =
      [(["home", "dev", "shop-api", "package-lock.json"], Node.file "lock"),
        (["home", "dev", "shop-api", "node_modules"], Node.dir),
        (["home", "dev", "shop-api", "package.json"], Node.file demoManifestText),
        (["home", "dev", "shop-api"], Node.dir), ([], Node.dir), (["home"], Node.dir),
        (["home", "dev"], Node.dir)] := by decide
  obtain ⟨s1, h, -⟩ := generate_leaves_seven_under_src demoEnv "shop-api" demoState
    (demoEnv.exec npmInit ["home", "dev", "shop-api"]
      (demoState.fs.set ["home", "dev", "shop-api"] Node.dir)).2
    (demoEnv.exec npmInstall ["home", "dev", "shop-api"]
      (demoEnv.exec npmInit ["home", "dev", "shop-api"]
        (demoState.fs.set ["home", "dev", "shop-api"] Node.dir)).2).2
    (demoEnv.exec npmInstallDev ["home", "dev", "shop-api"]
      (demoEnv.exec npmInstall ["home", "dev", "shop-api"]
        (demoEnv.exec npmInit ["home", "dev", "shop-api"]
          (demoState.fs.set ["home", "dev", "shop-api"] Node.dir)).2).2).2
    demoManifestText
    [("name", Json.str "shop-api"), ("version", Json.str "1.0.0"),
      ("scripts", Json.obj [("test", Json.str "exit 1")])]
    (by decide) (by decide) (by decide) (fun _ => rfl) rfl rfl rfl
    (by decide) (by decide) rfl (by decide)
    (by
      intro p hp
      cases hg : FS.get _ p with
      | none => rfl
      | some v =>
        exfalso
        have hm := FS.get_some_mem _ _ _ hg
        rw [hent] at hm
        have hpre : ["home", "dev", "shop-api", "src"] <+: p := hp
        simp only [List.mem_cons, Prod.mk.injEq, List.mem_singleton, List.not_mem_nil,
          or_false] at hm
        rcases hm with h | h | h | h | h | h | h <;> rw [h.1] at hpre <;>
          exact absurd hpre (by decide))
  rw [h]

set_option maxRecDepth 8000 in
/-- C6, counterexample to the claim as stated: for the name `shop-api`, valid and with a
free target path, the run in `demoEnv` succeeds and leaves seven populated files below
`shop-api/src`, not nine. -/
theorem nine_files_under_src_counterexample :
    ValidName "shop-api" ∧
    existsSync demoState.fs (pathJoin demoState.cwd "shop-api") = false ∧
    (cli demoEnv "shop-api" demoState).1 = 0 ∧
    (populatedFilesUnder (cli demoEnv "shop-api" demoState).2.fs
      ["home", "dev", "shop-api", "src"]).length = 7 ∧
    (populatedFilesUnder (cli demoEnv "shop-api" demoState).2.fs
      ["home", "dev", "shop-api", "src"]).length ≠ 9 := by
  refine ⟨by decide, by decide, by decide, by decide, by decide⟩

/-- C7: the template writes of `generateProject` are fixed by the project name: they do
not depend on the target path, and in any two runs for the same name, whatever the
environment and the file system, a template file that is written in both is written with
the same content.  For two names the writes other than that of `.env` coincide (`.gitignore`
and the seven files under `src/`), while the content of `.env` determines the name. -/
theorem template_content_depends_on_name_only :
    (∀ n p q, templateWrites (body n p) = templateWrites (body n q)) ∧
    (∀ (env1 env2 : Env) (fs1 fs2 : FS) (cwd1 cwd2 : Path) (n file c1 c2 : String),
      Stmt.writeFileSync file c1 ∈ (cli env1 n (State.initial fs1 cwd1)).2.log →
      Stmt.writeFileSync file c2 ∈ (cli env2 n (State.initial fs2 cwd2)).2.log →
      c1 = c2) ∧
    (∀ n m p q, (templateWrites (body n p)).filter (fun e => decide (e.1 ≠ ".env")) =
      (templateWrites (body m q)).filter (fun e => decide (e.1 ≠ ".env"))) ∧
    (∀ n p, ((templateWrites (body n p)).filter (fun e => decide (e.1 ≠ ".env"))).map
        (fun e => e.1) =
      [".gitignore", "src/server.js", "src/config/db.js", "src/models/User.js",
        "src/controllers/userController.js", "src/routes/userRoutes.js",
        "src/middleware/authMiddleware.js", "src/utils/generateToken.js"]) ∧
    (∀ n m, envContent n = envContent m → n = m) := by
  refine ⟨?_, ?_, ?_, ?_, envContent_injective⟩
  · intro n p q; rfl
  · intro env1 env2 fs1 fs2 cwd1 cwd2 n file c1 c2 h1 h2
    have e1 := mem_body_write n _ file c1 (cli_log_mem_body env1 n fs1 cwd1 _ h1)
    have e2 := mem_body_write n _ file c2 (cli_log_mem_body env2 n fs2 cwd2 _ h2)
    rw [e1] at e2
    exact Option.some.inj e2
  · intro n m p q
    simp [body, templateStmts, setupStmts, commandStmts, patchStmts, directoryStmts,
      directories, templateWrites, List.filter]
  · intro n p
    simp [body, templateStmts, setupStmts, commandStmts, patchStmts, directoryStmts,
      directories, templateWrites, List.filter]

/-- C8 (as the code has it): when a statement of the generator throws, the process ends
with status 1 in the state that statement left.  The statements before it ran to their end,
none after it was started (the log ends with the failing statement), the working directory
and the variable `packageJson` are as before it.  The file system is the one just before
the failing statement when that statement is `mkdirSync`, `chdir`, the read or an
assignment.  When it is a file write, the file system is the one just before it, or that
one with the file being written, and nothing else, created or emptied and holding what
the broken write left.  When it is an external command, it is whatever that command
left. -/
theorem failure_stops_the_run (env : Env) (n : String) (s s2 : State)
    (h : generateProject env n s = (Outcome.rejected, s2)) :
    cli env n s = (1, s2) ∧
    ∃ l1 st l2 s1, body n (pathJoin s.cwd n) = l1 ++ st :: l2 ∧
      runStmts env l1 s = StepResult.next s1 ∧
      st.run env s1 = StepResult.throw s2 ∧
      s2.log = s.log ++ l1 ++ [st] ∧
      s2.cwd = s1.cwd ∧ s2.packageJson = s1.packageJson ∧
      (match st with
        | Stmt.execSync command => s2.fs = (env.exec command s1.cwd s1.fs).2
        | Stmt.writeFileSync file _ =>
          s2.fs = s1.fs ∨ (s1.fs.get (pathJoin s1.cwd file) ≠ some Node.dir ∧
            ∃ left, s2.fs = s1.fs.set (pathJoin s1.cwd file) (Node.file left))
        | Stmt.writePackageJson file =>
          s2.fs = s1.fs ∨ (s1.fs.get (pathJoin s1.cwd file) ≠ some Node.dir ∧
            ∃ left, s2.fs = s1.fs.set (pathJoin s1.cwd file) (Node.file left))
        | _ => s2.fs = s1.fs) := by
  refine ⟨by simp [cli, h], ?_⟩
  unfold generateProject at h
  by_cases hex : existsSyncJoin s.fs s.cwd n = true
  · simp [hex] at h
  · simp only [hex] at h
    cases hr : runStmts env (body n (pathJoin s.cwd n)) s with
    | next s3 => rw [hr] at h; simp at h
    | throw s3 =>
      rw [hr] at h
      simp only [Bool.false_eq_true, if_false, Prod.mk.injEq, true_and] at h
      subst h
      obtain ⟨l1, st, l2, s1, hsplit, hn, ht⟩ := runStmts_throw_split env _ s s3 hr
      obtain ⟨hcwd, hpj, hlog⟩ := Stmt.run_throw_frame env st s1 s3 ht
      have hfs := Stmt.run_throw_fs env st s1 s3 ht
      refine ⟨l1, st, l2, s1, hsplit, hn, ht, ?_, hcwd, hpj, ?_⟩
      · rw [hlog, runStmts_next_log env l1 s s1 hn]
      · cases st with
        | mkdirRecursive dir => exact loop_mkdir_atomic env n _ s s1 s3 l1 l2 dir hsplit hn ht
        | execSync command => exact hfs
        | mkdirSync p => exact hfs
        | chdir p => exact hfs
        | readPackageJson f => exact hfs
        | assign k v => exact hfs
        | writePackageJson f => exact hfs
        | writeFileSync f c => exact hfs

/-- C8 (as the code has it) at a concrete input: the failing run of `shop-api` in
`brokenInstallEnv`. -/
theorem failure_stops_the_run_witness :
    cli brokenInstallEnv "shop-api" demoState =
      (1, (generateProject brokenInstallEnv "shop-api" demoState).2) :=
  (failure_stops_the_run brokenInstallEnv "shop-api" demoState
    (generateProject brokenInstallEnv "shop-api" demoState).2 rfl).1

/-- C8, counterexample to the claim as stated, in two runs for the name `shop-api`.  In
`brokenInstallEnv` the installation of the runtime dependencies is the fourth statement and
fails after it has created `node_modules`: the three statements before it succeed, the run
ends with status 1 and nothing later is started, but the file system is not the one just
before the failing step, it holds the directory `node_modules`, which did not exist then.
In `diskFullEnv` the write of `package.json` is the ninth statement and breaks off after the
file has been opened: the run ends with status 1 and nothing later is started, but the
manifest, which the initialisation had created with its text, is now empty. -/
theorem failure_keeps_pre_state_counterexample :
    ((cli brokenInstallEnv "shop-api" demoState).1 = 1 ∧
      (cli brokenInstallEnv "shop-api" demoState).2.log =
        (body "shop-api" ["home", "dev", "shop-api"]).take 4 ∧
      (body "shop-api" ["home", "dev", "shop-api"])[3]? = some (Stmt.execSync npmInstall) ∧
      (∃ s1, runStmts brokenInstallEnv ((body "shop-api" ["home", "dev", "shop-api"]).take 3)
          demoState = StepResult.next s1 ∧
        s1.fs.get ["home", "dev", "shop-api", "node_modules"] = none ∧
        (cli brokenInstallEnv "shop-api" demoState).2.fs.get
          ["home", "dev", "shop-api", "node_modules"] = some Node.dir ∧
        (cli brokenInstallEnv "shop-api" demoState).2.fs ≠ s1.fs)) ∧
    ((cli diskFullEnv "shop-api" demoState).1 = 1 ∧
      (cli diskFullEnv "shop-api" demoState).2.log =
        (body "shop-api" ["home", "dev", "shop-api"]).take 9 ∧
      (body "shop-api" ["home", "dev", "shop-api"])[8]? =
        some (Stmt.writePackageJson "package.json") ∧
      (∃ s1, runStmts diskFullEnv ((body "shop-api" ["home", "dev", "shop-api"]).take 8)
          demoState = StepResult.next s1 ∧
        s1.fs.get ["home", "dev", "shop-api", "package.json"] =
          some (Node.file demoManifestText) ∧
        (cli diskFullEnv "shop-api" demoState).2.fs.get
          ["home", "dev", "shop-api", "package.json"] = some (Node.file "") ∧
        (cli diskFullEnv "shop-api" demoState).2.fs ≠ s1.fs)) := by
  refine ⟨⟨by decide, rfl, rfl, ?_⟩, ⟨by decide, rfl, rfl, ?_⟩⟩
  · exact ⟨(runStmts brokenInstallEnv ((body "shop-api" ["home", "dev", "shop-api"]).take 3)
      demoState).state, rfl, by decide, by decide, by decide⟩
  · exact ⟨(runStmts diskFullEnv ((body "shop-api" ["home", "dev", "shop-api"]).take 8)
      demoState).state, rfl, by decide, by decide, by decide⟩

/-- C9: the relative paths of the ten files `generateProject` writes (the manifest and
the nine templates) are pairwise distinct; the directory of each is the project root or
one of the seven directories of the loop; in `body` the loop stands before the template
writes and no file write stands before the loop other than that of the manifest.  In every
run, at the moment a template write is reached (all statements before it have succeeded)
the directory of its file exists, and so does the directory of the manifest when the
manifest write is reached. -/
theorem written_paths_distinct_parents_exist (n : String) (r : Path) :
    (writtenFiles (body n r)).Nodup ∧
    (∀ f ∈ writtenFiles (body n r),
      (segments f).dropLast ∈ [] :: directories.map segments) ∧
    (body n r = setupStmts r ++ commandStmts ++ patchStmts ++ directoryStmts ++
        templateStmts n ∧
      directoryStmts = directories.map Stmt.mkdirRecursive ∧
      writtenFiles (setupStmts r ++ commandStmts ++ patchStmts ++ directoryStmts) =
        ["package.json"] ∧
      ∀ st ∈ templateStmts n, ∃ f c, st = Stmt.writeFileSync f c) ∧
    (∀ (env : Env) (s s1 : State) (ts1 ts2 : List Stmt) (st : Stmt),
      templateStmts n = ts1 ++ st :: ts2 →
      runStmts env (setupStmts r ++ commandStmts ++ patchStmts ++ directoryStmts ++ ts1) s =
        StepResult.next s1 →
      ∃ f c, st = Stmt.writeFileSync f c ∧
        s1.fs.get (parentDir (pathJoin s1.cwd f)) = some Node.dir) ∧
    (∀ (env : Env) (s s1 : State),
      runStmts env (setupStmts r ++ commandStmts ++ patchStmts.take 3) s =
        StepResult.next s1 →
      patchStmts.drop 3 = [Stmt.writePackageJson "package.json"] ∧
        s1.fs.get (parentDir (pathJoin s1.cwd "package.json")) = some Node.dir) := by
  have hw : writtenFiles (body n r) = ["package.json", ".env", ".gitignore", "src/server.js",
      "src/config/db.js", "src/models/User.js", "src/controllers/userController.js",
      "src/routes/userRoutes.js", "src/middleware/authMiddleware.js",
      "src/utils/generateToken.js"] := rfl
  refine ⟨by rw [hw]; decide, by rw [hw]; decide, ⟨rfl, rfl, rfl, ?_⟩, ?_, ?_⟩
  · intro st hst
    simp only [templateStmts, List.mem_cons, List.mem_singleton, List.not_mem_nil,
      or_false] at hst
    rcases hst with h | h | h | h | h | h | h | h | h <;> exact ⟨_, _, h⟩
  · intro env s s1 ts1 ts2 st hsplit hrun
    obtain ⟨sd, hrun, hts⟩ := runStmts_append_next env _ _ s s1 hrun
    obtain ⟨sp, hrun, hds⟩ := runStmts_append_next env _ _ s sd hrun
    obtain ⟨sc, -, hps⟩ := runStmts_append_next env _ _ s sp hrun
    obtain ⟨-, hroot⟩ := patch_leaves_root env sc sp hps
    have hdirs := runStmts_mkdirs_create env directories sp sd hds
    obtain ⟨hcd, hkd⟩ := runStmts_tail_keeps env directoryStmts sp sd
      (by simp [directoryStmts, Stmt.isTail]) hds
    have hsub : ∀ x ∈ ts1, x ∈ templateStmts n := fun x hx => by rw [hsplit]; simp [hx]
    obtain ⟨hc1, hk1⟩ := runStmts_tail_keeps env ts1 sd s1
      (fun x hx => by
        have := hsub x hx
        simp only [templateStmts, List.mem_cons, List.mem_singleton, List.not_mem_nil,
          or_false] at this
        rcases this with h | h | h | h | h | h | h | h | h <;> rw [h] <;> rfl) hts
    have hroot1 : s1.fs.get s1.cwd = some Node.dir := by
      rw [hc1, hcd]; exact hk1 _ (hkd _ hroot)
    have hdir1 : ∀ d ∈ directories, s1.fs.get (s1.cwd ++ segments d) = some Node.dir := by
      intro d hd
      rw [hc1, hcd]; exact hk1 _ (hdirs d hd)
    have hmem : st ∈ templateStmts n := by rw [hsplit]; simp
    simp only [templateStmts, List.mem_cons, List.mem_singleton, List.not_mem_nil,
      or_false] at hmem
    have hsrc := hdir1 "src" (by decide)
    have hconfig := hdir1 "src/config" (by decide)
    have hcontrollers := hdir1 "src/controllers" (by decide)
    have hmiddleware := hdir1 "src/middleware" (by decide)
    have hmodels := hdir1 "src/models" (by decide)
    have hroutes := hdir1 "src/routes" (by decide)
    have hutils := hdir1 "src/utils" (by decide)
    simp [segments, splitOnChar] at hsrc hconfig hcontrollers hmiddleware hmodels hroutes hutils
    rcases hmem with h | h | h | h | h | h | h | h | h <;> refine ⟨_, _, h, ?_⟩ <;>
      simp [pathJoin, segments, splitOnChar, applySegment, parentDir, List.dropLast, hroot1,
        hsrc, hconfig, hcontrollers, hmiddleware, hmodels, hroutes, hutils]
  · intro env s s1 hrun
    obtain ⟨sc, -, hps⟩ := runStmts_append_next env _ _ s s1 hrun
    exact ⟨rfl, (read_assign_keeps_parent env sc s1 hps).2.2⟩

/-- C10: for the empty project name the resolved path is the working directory itself;
as that directory exists, `generateProject` takes the collision branch: the process ends
with status 1 in an unchanged state, so no directory or file has been created and no
external command started. -/
theorem empty_name_collides (env : Env) (s : State)
    (hcwd : existsSync s.fs s.cwd = true) :
    pathJoin s.cwd "" = s.cwd ∧ generateProject env "" s = (Outcome.exited 1, s) ∧
      cli env "" s = (1, s) := by
  have hp := pathJoin_empty s.cwd
  have hg : generateProject env "" s = (Outcome.exited 1, s) := by
    simp [generateProject, existsSyncJoin_empty, hcwd]
  exact ⟨hp, hg, by simp [cli, hg]⟩

/-- C10 at a concrete input: the empty name in `/home/dev`. -/
theorem empty_name_collides_witness : cli demoEnv "" demoState = (1, demoState) :=
  (empty_name_collides demoEnv demoState (by decide)).2.2

end CreateExpressCrudApp
